import Mathlib

/-!
Verification development for the Homelab-Benchmarking repository
(`src/app.py`, `src/benchmarks/data_parser.py`, `src/benchmarks/gpu_monitor.py`).

The Python code is shallowly embedded: Python strings are `List Char`,
Python dicts with string keys and numeric values are insertion-ordered
association lists, every regular expression that the code uses is
transcribed as an explicit character-scanning function (all the patterns
in the source combine literals with the disjoint character classes
`\d`, `\s`, so greedy maximal-munch scanning is exactly the semantics of
Python's backtracking engine on them), and the effectful control flow of
the run sequencer is modelled as a function producing the ordered trace
of its broadcast/filesystem events.
-/

set_option autoImplicit false

namespace HomelabBench

/-- Python strings are modelled as lists of characters. -/
abbrev PyStr := List Char

/-- The characters Python's `str.strip()` (and the regex class `\s`)
treats as whitespace, restricted to ASCII, which is all the benchmark
tool output contains. -/
def isPySpace (c : Char) : Bool :=
  c = ' ' || c = '\t' || c = '\n' || c = '\r' || c = '\x0b' || c = '\x0c'

/-- Python `s.strip()`: drop whitespace from both ends. -/
def pyStrip (s : PyStr) : PyStr :=
  ((s.dropWhile isPySpace).reverse.dropWhile isPySpace).reverse

/-- Python `s.lower()` (ASCII case folding, which covers the inputs here). -/
def pyLower (s : PyStr) : PyStr := s.map Char.toLower

/-- Python `s.startswith(p)`. -/
def pyStartsWith : PyStr → PyStr → Bool
  | _, [] => true
  | [], _ :: _ => false
  | c :: s, d :: p => c = d && pyStartsWith s p

/-- Python `s.endswith(p)`. -/
def pyEndsWith (s p : PyStr) : Bool := pyStartsWith s.reverse p.reverse

/-- Python's substring test `p in s`. -/
def pyContains (s p : PyStr) : Bool :=
  match s with
  | [] => pyStartsWith [] p
  | _ :: t => pyStartsWith s p || pyContains t p

/-- Python `s.split(sep)` for a one-character separator: all pieces,
empty pieces kept. -/
def pySplit (sep : Char) : PyStr → List PyStr
  | [] => [[]]
  | c :: t =>
    if c = sep then [] :: pySplit sep t
    else
      match pySplit sep t with
      | [] => [[c]]
      | h :: r => (c :: h) :: r

/-- Python `s.split(sep, 1)` for a one-character separator: at most one
split, at the first occurrence. -/
def pySplit1 (sep : Char) : PyStr → List PyStr
  | [] => [[]]
  | c :: t =>
    if c = sep then [[], t]
    else
      match pySplit1 sep t with
      | [] => [[c]]
      | h :: r => (c :: h) :: r

/-- Structural worker for `pySplitWs`; each step consumes at least one
character, so `fuel = s.length` always suffices and the fuel-exhausted
arm is unreachable from the wrapper. -/
def pySplitWsF : ℕ → PyStr → List PyStr
  | 0, _ => []
  | fuel + 1, s =>
    match s.dropWhile isPySpace with
    | [] => []
    | c :: t =>
      (c :: t.takeWhile (fun d => !isPySpace d))
        :: pySplitWsF fuel (t.dropWhile (fun d => !isPySpace d))

/-- Python `s.split()` with no argument: split on whitespace runs,
dropping empty pieces. -/
def pySplitWs (s : PyStr) : List PyStr := pySplitWsF s.length s

/-- Python `s.replace(a, b)` for one-character `a`, `b`
(used by the sequencer as `name.replace(' ', '_')`). -/
def pyReplaceChar (a b : Char) (s : PyStr) : PyStr :=
  s.map fun c => if c = a then b else c

/-- Python `"\n".join(lines)`. -/
def joinNl (lines : List PyStr) : PyStr := List.intercalate ['\n'] lines

/-- Numeric value of a decimal digit character. -/
def digitVal (c : Char) : ℕ := c.toNat - '0'.toNat

/-- Numeric value of a string of decimal digits (`int(...)` on a digit run). -/
def natOfDigits (ds : PyStr) : ℕ := ds.foldl (fun n c => 10 * n + digitVal c) 0

/-- The rational value of the decimal literal `intPart ++ "." ++ frac`;
Python's `float(...)` applied to a matched `\d+\.\d+` group
(`i.f = (i·10^k + f) / 10^k` with `k` fraction digits). -/
def ratOfFloatDigits (intPart frac : PyStr) : ℚ :=
  mkRat (natOfDigits intPart * 10 ^ frac.length + natOfDigits frac) (10 ^ frac.length)

/-! ### At-position matchers for the regex fragments used by the source

Each matcher consumes a pattern fragment at the head of the input and
returns the remaining characters (plus any captured value).  `reSearch`
turns an at-position matcher into Python's `re.search` (leftmost match). -/

/-- Regex fragment `\d+` (greedy, at the current position). -/
def matchDigits1 : PyStr → Option (PyStr × PyStr)
  | [] => none
  | c :: t =>
    if c.isDigit then some (c :: t.takeWhile Char.isDigit, t.dropWhile Char.isDigit)
    else none

/-- A single literal character at the current position. -/
def matchChar (a : Char) : PyStr → Option PyStr
  | [] => none
  | c :: t => if c = a then some t else none

/-- A literal string at the current position. -/
def matchLit (lit : PyStr) (s : PyStr) : Option PyStr :=
  if pyStartsWith s lit then some (s.drop lit.length) else none

/-- Regex fragment `\s+` (greedy). -/
def matchWs1 : PyStr → Option PyStr
  | [] => none
  | c :: t => if isPySpace c then some (t.dropWhile isPySpace) else none

/-- Regex fragment `\s*` (greedy). -/
def matchWs0 (s : PyStr) : Option PyStr := some (s.dropWhile isPySpace)

/-- Regex fragment `(\d+\.\d+)` capturing the matched characters. -/
def matchFloatStr (s : PyStr) : Option (PyStr × PyStr) :=
  match matchDigits1 s with
  | none => none
  | some (ip, r1) =>
    match matchChar '.' r1 with
    | none => none
    | some r2 =>
      match matchDigits1 r2 with
      | none => none
      | some (fp, r3) => some (ip ++ '.' :: fp, r3)

/-- The rational value of a `\d+\.\d+` capture. -/
def ratOfFloatChars (cs : PyStr) : ℚ :=
  ratOfFloatDigits (cs.takeWhile Char.isDigit)
    ((cs.dropWhile Char.isDigit).drop 1)

/-- Regex fragment `(\d+\.\d+)` capturing the rational value. -/
def matchFloat (s : PyStr) : Option (ℚ × PyStr) :=
  (matchFloatStr s).map fun p => (ratOfFloatChars p.1, p.2)

/-- Regex fragment `(\d+\.?\d*)` capturing the rational value
(used by the Ollama metric patterns). -/
def matchNumLoose (s : PyStr) : Option (ℚ × PyStr) :=
  match matchDigits1 s with
  | none => none
  | some (ip, r1) =>
    match r1 with
    | '.' :: r2 =>
      some (ratOfFloatDigits ip (r2.takeWhile Char.isDigit), r2.dropWhile Char.isDigit)
    | _ => some ((natOfDigits ip : ℚ), r1)

/-- `re.search`: try the at-position matcher at every position, left to
right, and return the first success. -/
def reSearch {α : Type} (f : PyStr → Option α) : PyStr → Option α
  | [] => f []
  | c :: t =>
    match f (c :: t) with
    | some a => some a
    | none => reSearch f t

/-- The latest position at which an at-position matcher succeeds; this is
the behaviour of a greedy `.*` immediately in front of the fragment. -/
def reSearchLast {α : Type} (f : PyStr → Option α) : PyStr → Option α
  | [] => f []
  | c :: t =>
    match reSearchLast f t with
    | some a => some a
    | none => f (c :: t)

theorem matchDigits1_length {s : PyStr} {d r : PyStr}
    (h : matchDigits1 s = some (d, r)) : r.length < s.length := by
  cases s with
  | nil => simp [matchDigits1] at h
  | cons c t =>
    by_cases hc : c.isDigit
    · simp only [matchDigits1, hc, if_pos, Option.some.injEq, Prod.mk.injEq] at h
      have := (List.dropWhile_sublist (l := t) Char.isDigit).length_le
      rw [h.2] at this
      simp only [List.length_cons]
      omega
    · simp [matchDigits1, hc] at h

theorem matchChar_length {a : Char} {s r : PyStr}
    (h : matchChar a s = some r) : r.length < s.length := by
  cases s with
  | nil => simp [matchChar] at h
  | cons c t =>
    by_cases hc : c = a
    · simp only [matchChar, hc, if_pos, Option.some.injEq] at h
      rw [← h]
      simp
    · simp [matchChar, hc] at h

theorem matchFloatStr_length {s : PyStr} {a r : PyStr}
    (h : matchFloatStr s = some (a, r)) : r.length < s.length := by
  unfold matchFloatStr at h
  cases h1 : matchDigits1 s with
  | none => simp [h1] at h
  | some p1 =>
    obtain ⟨ip, r1⟩ := p1
    simp only [h1] at h
    cases h2 : matchChar '.' r1 with
    | none => simp [h2] at h
    | some r2 =>
      simp only [h2] at h
      cases h3 : matchDigits1 r2 with
      | none => simp [h3] at h
      | some p3 =>
        obtain ⟨fp, r3⟩ := p3
        simp only [h3, Option.some.injEq, Prod.mk.injEq] at h
        have l1 := matchDigits1_length h1
        have l2 := matchChar_length h2
        have l3 := matchDigits1_length h3
        rw [← h.2]
        omega

/-! ### The individual `re` calls of the source, one definition each -/

/-- `re.search(r'(\d+)', line)`, with the captured group read as an `int`. -/
def reInt (s : PyStr) : Option ℕ :=
  reSearch (fun s => (matchDigits1 s).map fun p => natOfDigits p.1) s

/-- `re.search(r'events per second:\s*(\d+\.\d+)', line)`. -/
def reEventsPerSec (s : PyStr) : Option ℚ :=
  reSearch (fun s => do
    let r1 ← matchLit "events per second:".data s
    let r2 ← matchWs0 r1
    let (q, _) ← matchFloat r2
    pure q) s

/-- `re.search(r'(\d+\.\d+)\s+s', line)`. -/
def reTotalTimeS (s : PyStr) : Option ℚ :=
  reSearch (fun s => do
    let (q, r1) ← matchFloat s
    let r2 ← matchWs1 r1
    let _ ← matchLit "s".data r2
    pure q) s

/-- `re.search(r'min:\s+(\d+\.\d+)\s+avg:\s+(\d+\.\d+)\s+max:\s+(\d+\.\d+)', line)`. -/
def reMinAvgMax (s : PyStr) : Option (ℚ × ℚ × ℚ) :=
  reSearch (fun s => do
    let r1 ← matchLit "min:".data s
    let r2 ← matchWs1 r1
    let (a, r3) ← matchFloat r2
    let r4 ← matchWs1 r3
    let r5 ← matchLit "avg:".data r4
    let r6 ← matchWs1 r5
    let (b, r7) ← matchFloat r6
    let r8 ← matchWs1 r7
    let r9 ← matchLit "max:".data r8
    let r10 ← matchWs1 r9
    let (c, _) ← matchFloat r10
    pure (a, b, c)) s

/-- The common tail `\(avg/stddev\):\s+(\d+\.\d+)/(\d+\.\d+)` of the two
thread-fairness patterns. -/
def matchAvgStddevTail (s : PyStr) : Option (ℚ × ℚ) := do
  let r1 ← matchLit "(avg/stddev):".data s
  let r2 ← matchWs1 r1
  let (a, r3) ← matchFloat r2
  let r4 ← matchChar '/' r3
  let (b, _) ← matchFloat r4
  pure (a, b)

/-- `re.search(r'events.*\(avg/stddev\):\s+(\d+\.\d+)/(\d+\.\d+)', line)`:
leftmost `events`, then a greedy `.*` (the benchmark lines contain no
newline), so the captures come from the latest matching tail. -/
def reEventsAvgStddev (s : PyStr) : Option (ℚ × ℚ) :=
  reSearch (fun s => do
    let r1 ← matchLit "events".data s
    reSearchLast matchAvgStddevTail r1) s

/-- `re.search(r'execution time.*\(avg/stddev\):\s+(\d+\.\d+)/(\d+\.\d+)', line)`. -/
def reExecTimeAvgStddev (s : PyStr) : Option (ℚ × ℚ) :=
  reSearch (fun s => do
    let r1 ← matchLit "execution time".data s
    reSearchLast matchAvgStddevTail r1) s

/-- `re.search(r'(\d+\.\d+)\s+operations per second', line)`. -/
def reOpsPerSec (s : PyStr) : Option ℚ :=
  reSearch (fun s => do
    let (q, r1) ← matchFloat s
    let r2 ← matchWs1 r1
    let _ ← matchLit "operations per second".data r2
    pure q) s

/-- `re.search(r'(\d+\.\d+)\s+MiB/sec', line)`. -/
def reMiBSec (s : PyStr) : Option ℚ :=
  reSearch (fun s => do
    let (q, r1) ← matchFloat s
    let r2 ← matchWs1 r1
    let _ ← matchLit "MiB/sec".data r2
    pure q) s

/-- At-position matcher for `(\d+\.\d+)%`, capturing the matched float
characters (the percentile keys reuse the matched text). -/
def matchPct (s : PyStr) : Option (PyStr × PyStr) := do
  let (cs, r1) ← matchFloatStr s
  let r2 ← matchChar '%' r1
  pure (cs, r2)

theorem matchPct_length {s : PyStr} {a r : PyStr}
    (h : matchPct s = some (a, r)) : r.length < s.length := by
  unfold matchPct at h
  cases h1 : matchFloatStr s with
  | none => simp [h1] at h
  | some p1 =>
    obtain ⟨cs, r1⟩ := p1
    simp only [h1, Option.bind_eq_bind, Option.some_bind] at h
    cases h2 : matchChar '%' r1 with
    | none => simp [h2] at h
    | some r2 =>
      simp only [h2, Option.some_bind, Option.pure_def, Option.some.injEq,
        Prod.mk.injEq] at h
      have l1 := matchFloatStr_length h1
      have l2 := matchChar_length h2
      rw [← h.2]
      omega

/-- Structural worker for `findAllPct` (a match consumes at least one
character — see `matchPct_length` — so `fuel = s.length` suffices). -/
def findAllPctF : ℕ → PyStr → List PyStr
  | 0, _ => []
  | _ + 1, [] => []
  | fuel + 1, c :: t =>
    match matchPct (c :: t) with
    | some (a, r) => a :: findAllPctF fuel r
    | none => findAllPctF fuel t

/-- `re.findall(r'(\d+\.\d+)%', line)`: all non-overlapping matches, left
to right, as matched strings. -/
def findAllPct (s : PyStr) : List PyStr := findAllPctF s.length s

/-- At-position matcher for `(\d+\.\d+)\s+ms`, capturing the value. -/
def matchMsF (s : PyStr) : Option (ℚ × PyStr) := do
  let (cs, r1) ← matchFloatStr s
  let r2 ← matchWs1 r1
  let r3 ← matchLit "ms".data r2
  pure (ratOfFloatChars cs, r3)

theorem matchMsF_length {s : PyStr} {a : ℚ} {r : PyStr}
    (h : matchMsF s = some (a, r)) : r.length < s.length := by
  unfold matchMsF at h
  cases h1 : matchFloatStr s with
  | none => simp [h1] at h
  | some p1 =>
    obtain ⟨cs, r1⟩ := p1
    simp only [h1, Option.bind_eq_bind, Option.some_bind] at h
    cases h2 : matchWs1 r1 with
    | none => simp [h2] at h
    | some r2 =>
      simp only [h2, Option.some_bind] at h
      cases h3 : matchLit "ms".data r2 with
      | none => simp [h3] at h
      | some r3 =>
        simp only [h3, Option.some_bind, Option.pure_def, Option.some.injEq,
          Prod.mk.injEq] at h
        have l1 := matchFloatStr_length h1
        have l2 : r2.length < r1.length := by
          cases r1 with
          | nil => simp [matchWs1] at h2
          | cons d t =>
            by_cases hd : isPySpace d
            · simp only [matchWs1, hd, if_pos, Option.some.injEq] at h2
              have := (List.dropWhile_sublist (l := t) isPySpace).length_le
              rw [h2] at this
              simp only [List.length_cons]
              omega
            · simp [matchWs1, hd] at h2
        have l3 : r3.length ≤ r2.length := by
          unfold matchLit at h3
          split at h3
          · cases h3; simp
          · cases h3
        rw [← h.2]
        omega

/-- Structural worker for `findAllMs` (cf. `matchMsF_length`). -/
def findAllMsF : ℕ → PyStr → List ℚ
  | 0, _ => []
  | _ + 1, [] => []
  | fuel + 1, c :: t =>
    match matchMsF (c :: t) with
    | some (a, r) => a :: findAllMsF fuel r
    | none => findAllMsF fuel t

/-- `re.findall(r'(\d+\.\d+)\s+ms', line)` as values. -/
def findAllMs (s : PyStr) : List ℚ := findAllMsF s.length s

/-- `re.search(r'(\d+\.\d+)', line)` (first float anywhere). -/
def reFirstFloat (s : PyStr) : Option ℚ :=
  reSearch matchFloat s |>.map Prod.fst

/-- `re.search(r'(\d+\.\d+)\s+MiB', line)`. -/
def reFloatMiB (s : PyStr) : Option ℚ :=
  reSearch (fun s => do
    let (q, r1) ← matchFloat s
    let r2 ← matchWs1 r1
    let _ ← matchLit "MiB".data r2
    pure q) s

/-- `re.search(r'(\d+)\s+bytes?', line)`; matching `byte` suffices, the
trailing `s?` constrains nothing. -/
def reIntBytes (s : PyStr) : Option ℕ :=
  reSearch (fun s => do
    let (d, r1) ← matchDigits1 s
    let r2 ← matchWs1 r1
    let _ ← matchLit "byte".data r2
    pure (natOfDigits d)) s

/-- `re.search(r'Temperature:\s+(\d+)°C', line)`, value via `float(...)`. -/
def reTempC (s : PyStr) : Option ℚ :=
  reSearch (fun s => do
    let r1 ← matchLit "Temperature:".data s
    let r2 ← matchWs1 r1
    let (d, r3) ← matchDigits1 r2
    let _ ← matchLit "°C".data r3
    pure ((natOfDigits d : ℚ))) s

/-- `re.search(r'\[(.*?)\]', line)`: leftmost `[`, non-greedy capture up
to the first following `]`. -/
def reBracketTs (s : PyStr) : Option PyStr :=
  reSearch (fun s =>
    match s with
    | '[' :: t =>
      let cap := t.takeWhile fun c => c ≠ ']'
      if cap.length < t.length then some cap else none
    | _ => none) s

/-- `re.search(r'Utilization:\s+(\d+)%', line)`, value via `float(...)`. -/
def reUtilPct (s : PyStr) : Option ℚ :=
  reSearch (fun s => do
    let r1 ← matchLit "Utilization:".data s
    let r2 ← matchWs1 r1
    let (d, r3) ← matchDigits1 r2
    let _ ← matchLit "%".data r3
    pure ((natOfDigits d : ℚ))) s

/-- `re.search(r'Memory:\s+(\d+)/(\d+)\s+MB', line)`, values via `float(...)`. -/
def reMemUsedTotal (s : PyStr) : Option (ℚ × ℚ) :=
  reSearch (fun s => do
    let r1 ← matchLit "Memory:".data s
    let r2 ← matchWs1 r1
    let (u, r3) ← matchDigits1 r2
    let r4 ← matchChar '/' r3
    let (t, r5) ← matchDigits1 r4
    let r6 ← matchWs1 r5
    let _ ← matchLit "MB".data r6
    pure ((natOfDigits u : ℚ), (natOfDigits t : ℚ))) s

/-- `re.search(r'(\d+\.\d+)\s+events per second', line)` — the live
per-line CPU parse inside `run_benchmark`. -/
def reFloatEventsPerSec (s : PyStr) : Option ℚ :=
  reSearch (fun s => do
    let (q, r1) ← matchFloat s
    let r2 ← matchWs1 r1
    let _ ← matchLit "events per second".data r2
    pure q) s

/-- `re.search(r'Tokens/sec:\s*(\d+\.?\d*)', line)`. -/
def reTokensPerSec (s : PyStr) : Option ℚ :=
  reSearch (fun s => do
    let r1 ← matchLit "Tokens/sec:".data s
    let r2 ← matchWs0 r1
    let (q, _) ← matchNumLoose r2
    pure q) s

/-- `re.search(r'Latency:\s*(\d+\.?\d*)', line)`. -/
def reLatencyNum (s : PyStr) : Option ℚ :=
  reSearch (fun s => do
    let r1 ← matchLit "Latency:".data s
    let r2 ← matchWs0 r1
    let (q, _) ← matchNumLoose r2
    pure q) s

/-- `re.search(r'Memory:\s*(\d+)', line)`, value via `int(...)`. -/
def reMemoryMbInt (s : PyStr) : Option ℕ :=
  reSearch (fun s => do
    let r1 ← matchLit "Memory:".data s
    let r2 ← matchWs0 r1
    let (d, _) ← matchDigits1 r2
    pure (natOfDigits d)) s

/-! ### Python dicts of named numeric metrics -/

/-- A Python dict with string keys and numeric values, insertion-ordered
(ints are embedded into `ℚ` alongside floats). -/
abbrev Metrics := List (PyStr × ℚ)

/-- Python `d[k] = v`: replace in place if present, else append. -/
def Metrics.set : Metrics → PyStr → ℚ → Metrics
  | [], k, v => [(k, v)]
  | (k0, v0) :: t, k, v =>
    if k0 = k then (k0, v) :: t else (k0, v0) :: Metrics.set t k v

/-- Python `d.get(k)`: `none` when the key is absent. -/
def Metrics.get? : Metrics → PyStr → Option ℚ
  | [], _ => none
  | (k0, v0) :: t, k => if k0 = k then some v0 else Metrics.get? t k

/-- Python `d.get(k, 0)`. -/
def Metrics.getD0 (m : Metrics) (k : PyStr) : ℚ := (m.get? k).getD 0

theorem Metrics.get?_set_self (m : Metrics) (k : PyStr) (v : ℚ) :
    (m.set k v).get? k = some v := by
  induction m with
  | nil => simp [Metrics.set, Metrics.get?]
  | cons p t ih =>
    obtain ⟨k0, v0⟩ := p
    by_cases h : k0 = k <;> simp [Metrics.set, Metrics.get?, h, ih]

theorem Metrics.get?_set_ne (m : Metrics) (k k' : PyStr) (v : ℚ) (h : k ≠ k') :
    (m.set k v).get? k' = m.get? k' := by
  induction m with
  | nil => simp [Metrics.set, Metrics.get?, h]
  | cons p t ih =>
    obtain ⟨k0, v0⟩ := p
    by_cases h0 : k0 = k
    · subst h0
      simp [Metrics.set, Metrics.get?, h]
    · by_cases h1 : k0 = k'
      · subst h1
        simp [Metrics.set, Metrics.get?, h0, Ne.symm h]
      · simp [Metrics.set, Metrics.get?, h0, h1, ih]

/-! ### `BenchmarkDataParser` (src/benchmarks/data_parser.py) -/

/-- One loop iteration of `BenchmarkDataParser.parse_sysbench_cpu`
(lines 17-58): the line is stripped, then each trigger-substring rule is
tried independently. -/
def parse_sysbench_cpu_step (m0 : Metrics) (line0 : PyStr) : Metrics :=
  let line := pyStrip line0
  let m1 := if pyContains line "total number of events".data then
      match reInt line with
      | some n => m0.set "total_events".data (n : ℚ)
      | none => m0
    else m0
  let m2 := if pyContains line "events per second".data then
      match reEventsPerSec line with
      | some q => m1.set "events_per_second".data q
      | none => m1
    else m1
  let m3 := if pyContains line "total time:".data && pyContains line "s".data then
      match reTotalTimeS line with
      | some q => m2.set "total_time_seconds".data q
      | none => m2
    else m2
  let m4 := if pyContains line "min:".data && pyContains line "avg:".data
        && pyContains line "max:".data then
      match reMinAvgMax line with
      | some (a, b, c) =>
        ((m3.set "event_time_min_ms".data a).set "event_time_avg_ms".data b).set
          "event_time_max_ms".data c
      | none => m3
    else m3
  if pyContains line "threads fairness:".data then
    let m5 := if pyContains line "events (avg/stddev)".data then
        match reEventsAvgStddev line with
        | some (a, b) =>
          (m4.set "thread_events_avg".data a).set "thread_events_stddev".data b
        | none => m4
      else m4
    if pyContains line "execution time (avg/stddev)".data then
      match reExecTimeAvgStddev line with
      | some (a, b) =>
        (m5.set "thread_time_avg".data a).set "thread_time_stddev".data b
      | none => m5
    else m5
  else m4

/-- `BenchmarkDataParser.parse_sysbench_cpu(output)`. -/
def parse_sysbench_cpu (output : List PyStr) : Metrics :=
  output.foldl parse_sysbench_cpu_step []

/-- The `total number of operations` block of
`BenchmarkDataParser.parse_sysbench_memory` (lines 70-73). -/
def memRuleTotalOps (m : Metrics) (line : PyStr) : Metrics :=
  if pyContains line "total number of operations".data then
    match reInt line with
    | some n => m.set "total_operations".data (n : ℚ)
    | none => m
  else m

/-- The `operations per second` block (lines 76-79). -/
def memRuleOpsPerSec (m : Metrics) (line : PyStr) : Metrics :=
  if pyContains line "operations per second".data then
    match reOpsPerSec line with
    | some q => m.set "operations_per_second".data q
    | none => m
  else m

/-- The `transferred` block (lines 82-89): the matched MiB/sec rate goes
to `read_mib_sec` when the line mentions `read` or the read rate is
still unset, else to `write_mib_sec`. -/
def memRuleTransferred (m : Metrics) (line : PyStr) : Metrics :=
  if pyContains line "transferred".data then
    match reMiBSec line with
    | some q =>
      if pyContains (pyLower line) "read".data
          || (m.get? "read_mib_sec".data).isNone then
        m.set "read_mib_sec".data q
      else
        m.set "write_mib_sec".data q
    | none => m
  else m

/-- The `Percentile` block (lines 92-99); pairing `enumerate` with the
`i < len(time_match)` guard is the zip of the two match lists. -/
def memRulePercentile (m : Metrics) (line : PyStr) : Metrics :=
  if pyContains line "Percentile".data && pyContains line "ms".data then
    let pcts := findAllPct line
    let times := findAllMs line
    if !pcts.isEmpty && !times.isEmpty then
      (pcts.zip times).foldl
        (fun acc pt => acc.set ("percentile_".data ++ pt.1 ++ "_ms".data) pt.2) m
    else m
  else m

/-- The latency summary block (lines 102-107). -/
def memRuleLatency (m : Metrics) (line : PyStr) : Metrics :=
  if pyContains line "min:".data && pyContains line "avg:".data
      && pyContains line "max:".data then
    match reMinAvgMax line with
    | some (a, b, c) =>
      ((m.set "latency_min_ms".data a).set "latency_avg_ms".data b).set
        "latency_max_ms".data c
    | none => m
  else m

/-- One loop iteration of `BenchmarkDataParser.parse_sysbench_memory`
(lines 66-107): the line is stripped, then the five independent
trigger-substring blocks run in order. -/
def parse_sysbench_memory_step (m0 : Metrics) (line0 : PyStr) : Metrics :=
  let line := pyStrip line0
  memRuleLatency
    (memRulePercentile
      (memRuleTransferred (memRuleOpsPerSec (memRuleTotalOps m0 line) line) line)
      line)
    line

/-- `BenchmarkDataParser.parse_sysbench_memory(output)`. -/
def parse_sysbench_memory (output : List PyStr) : Metrics :=
  output.foldl parse_sysbench_memory_step []

/-- One loop iteration of `BenchmarkDataParser.parse_sysbench_disk`
(lines 115-159). -/
def parse_sysbench_disk_step (m0 : Metrics) (line0 : PyStr) : Metrics :=
  let line := pyStrip line0
  let m1 := if pyContains line "total number of events".data then
      match reInt line with
      | some n => m0.set "total_operations".data (n : ℚ)
      | none => m0
    else m0
  let m2 := if pyContains line "operations per second".data then
      match reOpsPerSec line with
      | some q => m1.set "operations_per_second".data q
      | none => m1
    else m1
  let m3 := if pyContains line "read, MiB/s".data then
      match reFirstFloat line with
      | some q => m2.set "read_mib_s".data q
      | none => m2
    else m2
  let m4 := if pyContains line "written, MiB/s".data then
      match reFirstFloat line with
      | some q => m3.set "write_mib_s".data q
      | none => m3
    else m3
  let m5 := if pyContains line "min:".data && pyContains line "avg:".data
        && pyContains line "max:".data then
      match reMinAvgMax line with
      | some (a, b, c) =>
        ((m4.set "io_time_min_ms".data a).set "io_time_avg_ms".data b).set
          "io_time_max_ms".data c
      | none => m4
    else m4
  let m6 := if pyContains line "File size".data then
      match reFloatMiB line with
      | some q => m5.set "file_size_mib".data q
      | none => m5
    else m5
  if pyContains line "Block size".data then
    match reIntBytes line with
    | some n => m6.set "block_size_bytes".data (n : ℚ)
    | none => m6
  else m6

/-- `BenchmarkDataParser.parse_sysbench_disk(output)`. -/
def parse_sysbench_disk (output : List PyStr) : Metrics :=
  output.foldl parse_sysbench_disk_step []

/-- `BenchmarkDataParser._calculate_summary_stats(values)`.  The `p95`
index `int(count * 0.95)` (and `p99` analogously) is modelled as the
exact rational floor `95 * count / 100`; for the list lengths involved
the binary floating-point product truncates to the same integer. -/
def calculateSummaryStats (values : List ℚ) : Metrics :=
  match values with
  | [] => []
  | v :: vs =>
    let count := values.length
    let sorted := values.insertionSort (· ≤ ·)
    let mn := vs.foldl min v
    let mx := vs.foldl max v
    [("count".data, (count : ℚ)),
     ("min".data, mn),
     ("max".data, mx),
     ("mean".data, values.sum / (count : ℚ)),
     ("median".data,
       if count % 2 = 1 then sorted.getD (count / 2) 0
       else (sorted.getD (count / 2 - 1) 0 + sorted.getD (count / 2) 0) / 2),
     ("p95".data, if count > 20 then sorted.getD (95 * count / 100) 0 else mx),
     ("p99".data, if count > 100 then sorted.getD (99 * count / 100) 0 else mx)]

/-- The reading lists accumulated by `BenchmarkDataParser.parse_gpu_metrics`. -/
structure GpuLogAcc where
  temperature_readings : List ℚ
  utilization_readings : List ℚ
  memory_used_readings : List ℚ
  memory_total_readings : List ℚ
  timestamps : List PyStr
deriving DecidableEq, Repr

/-- One loop iteration of `BenchmarkDataParser.parse_gpu_metrics`
(lines 177-197); the timestamp is recorded only on a line whose
temperature pattern matched. -/
def parse_gpu_metrics_step (a0 : GpuLogAcc) (line : PyStr) : GpuLogAcc :=
  let a1 := if pyContains line "Temperature:".data then
      match reTempC line with
      | some t =>
        let a := { a0 with temperature_readings := a0.temperature_readings ++ [t] }
        match reBracketTs line with
        | some ts => { a with timestamps := a.timestamps ++ [ts] }
        | none => a
      | none => a0
    else a0
  let a2 := if pyContains line "Utilization:".data then
      match reUtilPct line with
      | some u => { a1 with utilization_readings := a1.utilization_readings ++ [u] }
      | none => a1
    else a1
  if pyContains line "GPU Memory:".data then
    match reMemUsedTotal line with
    | some (u, t) =>
      { a2 with memory_used_readings := a2.memory_used_readings ++ [u],
                memory_total_readings := a2.memory_total_readings ++ [t] }
    | none => a2
  else a2

/-- The result dict of `BenchmarkDataParser.parse_gpu_metrics`
(`power_readings` is initialised and never appended to). -/
structure GpuLogMetrics where
  temperature_readings : List ℚ
  utilization_readings : List ℚ
  memory_used_readings : List ℚ
  memory_total_readings : List ℚ
  power_readings : List ℚ
  timestamps : List PyStr
  temperature_summary : Metrics
  utilization_summary : Metrics
  memory_summary : Metrics
deriving DecidableEq, Repr

/-- `BenchmarkDataParser.parse_gpu_metrics(log_lines)`: fold the per-line
step over the lines, then attach summary statistics (empty for empty
reading lists, mirroring the `if ... else {}` at lines 200-202). -/
def parse_gpu_metrics (log_lines : List PyStr) : GpuLogMetrics :=
  let a := log_lines.foldl parse_gpu_metrics_step ⟨[], [], [], [], []⟩
  { temperature_readings := a.temperature_readings
    utilization_readings := a.utilization_readings
    memory_used_readings := a.memory_used_readings
    memory_total_readings := a.memory_total_readings
    power_readings := []
    timestamps := a.timestamps
    temperature_summary :=
      if a.temperature_readings.isEmpty then []
      else calculateSummaryStats a.temperature_readings
    utilization_summary :=
      if a.utilization_readings.isEmpty then []
      else calculateSummaryStats a.utilization_readings
    memory_summary :=
      if a.memory_used_readings.isEmpty then []
      else calculateSummaryStats a.memory_used_readings }

/-! ### Python `float(...)` -/

/-- The unsigned core of Python `float(s)`: digits with an optional
fraction part (`12`, `12.`, `12.5`, `.5`). -/
def pyFloatCore (s : PyStr) : Option ℚ :=
  let ip := s.takeWhile Char.isDigit
  match s.dropWhile Char.isDigit with
  | [] => if ip.isEmpty then none else some ((natOfDigits ip : ℚ))
  | '.' :: r2 =>
    let fp := r2.takeWhile Char.isDigit
    if (r2.dropWhile Char.isDigit).isEmpty && (!ip.isEmpty || !fp.isEmpty) then
      some (ratOfFloatDigits ip fp)
    else none
  | _ => none

/-- Models Python `float(s)` on the plain decimal forms the telemetry
query emits: surrounding whitespace, an optional sign, digits with an
optional fraction.  Anything else — in particular the `[N/A]` sentinel —
raises `ValueError`, modelled as `none`.  (Exponent/inf/nan forms do not
occur in this data.) -/
def pyFloat? (s : PyStr) : Option ℚ :=
  match pyStrip s with
  | '+' :: r => pyFloatCore r
  | '-' :: r => (pyFloatCore r).map Neg.neg
  | r => pyFloatCore r

/-! ### `get_runs` (src/app.py lines 72-129) -/

/-- The six derived scalar fields `get_runs` reports per run
(`cpu1Thread`, `cpuAllThreads`, `memory.read/write`, `disk.read/write`). -/
structure RunScalars where
  cpu1Thread : Option ℚ
  cpuAllThreads : Option ℚ
  memoryRead : ℚ
  memoryWrite : ℚ
  diskRead : ℚ
  diskWrite : ℚ
deriving DecidableEq, Repr

/-- The initial `run_info` scaffold (lines 82-90). -/
def initRunScalars : RunScalars := ⟨none, none, 0, 0, 0, 0⟩

/-- The `.txt` re-parsing step of `get_runs` (lines 103-125) for one
stored file.  It runs for every `.txt` file whether or not `metrics.json`
was loaded, overwriting the loaded scalars.  Note the disk branch reads
keys `disk_read_mib_s` / `disk_write_mib_s`, which `parse_sysbench_disk`
never produces (it stores `read_mib_s` / `write_mib_s`), so the disk
defaults 0 are always taken. -/
def get_runs_txtStep (ri : RunScalars) (filename content : PyStr) : RunScalars :=
  if pyEndsWith filename ".txt".data then
    let lower := pyLower filename
    let lines := pySplit '\n' content
    if pyContains lower "cpu_1_thread".data then
      { ri with cpu1Thread := (parse_sysbench_cpu lines).get? "events_per_second".data }
    else if pyContains lower "cpu_all_threads".data then
      { ri with cpuAllThreads := (parse_sysbench_cpu lines).get? "events_per_second".data }
    else if pyContains lower "memory_test".data then
      { ri with memoryRead := (parse_sysbench_memory lines).getD0 "read_mib_sec".data,
                memoryWrite := (parse_sysbench_memory lines).getD0 "write_mib_sec".data }
    else if pyContains lower "disk_test".data then
      { ri with diskRead := (parse_sysbench_disk lines).getD0 "disk_read_mib_s".data,
                diskWrite := (parse_sysbench_disk lines).getD0 "disk_write_mib_s".data }
    else ri
  else ri

/-- `get_runs` restricted to one run directory: `doc` is the parsed
`metrics.json` when the file exists and parses (when `run_benchmark`
wrote it, it carries all six scalar fields, so `run_info.update`
replaces them wholesale); `files` are the directory's files, as
`(filename, content)` in listing order, re-parsed afterwards. -/
def get_runs_scalars (doc : Option RunScalars) (files : List (PyStr × PyStr)) :
    RunScalars :=
  let ri := match doc with
    | some d => d
    | none => initRunScalars
  files.foldl (fun r fc => get_runs_txtStep r fc.1 fc.2) ri

/-! ### `broadcast` (src/app.py lines 254-264) -/

/-- Python `list.remove` wrapped in `try`/`except` (lines 260-264):
remove the first occurrence, no-op when absent. -/
def removeFirst : List ℕ → ℕ → List ℕ
  | [], _ => []
  | x :: t, v => if x = v then t else x :: removeFirst t v

/-- `broadcast(message)`, abstracted over the message text: viewers are
opaque handles, `fails` says whose `send_text` raises.  The loop iterates
over the snapshot `clients[:]`, delivering to each client in order and
removing a failing client from the live `clients` list as part of the
same call.  Returns `(delivered, clients after the call)`; the latter is
the snapshot the next `publish` will iterate over. -/
def broadcastFanout (clients : List ℕ) (fails : ℕ → Bool) : List ℕ × List ℕ :=
  clients.foldl
    (fun st c => if fails c then (st.1, removeFirst st.2 c) else (st.1 ++ [c], st.2))
    ([], clients)

/-! ### GPU telemetry (src/app.py lines 472-513, src/benchmarks/gpu_monitor.py) -/

/-- One telemetry sample of `monitor_gpu_during_benchmark`. -/
structure GpuSample where
  temperature : ℚ
  utilization : ℚ
  memory_used : ℚ
  memory_total : ℚ
deriving DecidableEq, Repr

/-- The parse step of one polling iteration of
`monitor_gpu_during_benchmark` (src/app.py lines 488-503), applied to the
decoded `nvidia-smi` stdout: split the stripped text on commas and
convert the first four fields with `float(field.strip())`.  All four
conversions sit inside one `try` whose `except ValueError: pass` drops
everything, so a single non-numeric field (e.g. the `[N/A]` sentinel)
discards the entire sample: nothing is broadcast and no line is appended
to `gpu_metrics.txt`. -/
def monitorGpuParseSample (stdoutText : PyStr) : Option GpuSample :=
  let gpu_data := pySplit ',' (pyStrip stdoutText)
  if gpu_data.length ≥ 4 then
    match pyFloat? (gpu_data.getD 0 []), pyFloat? (gpu_data.getD 1 []),
          pyFloat? (gpu_data.getD 2 []), pyFloat? (gpu_data.getD 3 []) with
    | some t, some u, some mu, some mt => some ⟨t, u, mu, mt⟩
    | _, _, _, _ => none
  else none

/-- One parsed GPU row of `GPUMonitor.get_gpu_metrics`
(src/benchmarks/gpu_monitor.py lines 74-85); the `timestamp` field
(`datetime.now()`) is environmental and omitted. -/
structure GpuMetricRow where
  gname : PyStr
  temperature : Option ℚ
  utilization : Option ℚ
  memory_used : Option ℚ
  memory_total : Option ℚ
  power_draw : Option ℚ
  clock_sm : Option ℚ
  clock_memory : Option ℚ
deriving DecidableEq, Repr

/-- The per-field conversion `float(p) if p != '[N/A]' else None`
(gpu_monitor.py lines 77-83): the sentinel becomes a missing value
(`ok none`); a non-numeric non-sentinel field raises, which the
function's outer `except Exception` turns into a `None` result for the
whole query (`error`). -/
def gpuField (s : PyStr) : Except Unit (Option ℚ) :=
  if s = "[N/A]".data then .ok none
  else match pyFloat? s with
    | some q => .ok (some q)
    | none => .error ()

/-- One CSV line of `GPUMonitor.get_gpu_metrics` (lines 68-85): parts
are the comma-split, stripped fields; a line with fewer than 8 parts is
skipped (`.ok none`, not an error); a field conversion error aborts the
whole query. -/
def get_gpu_metrics_row (line : PyStr) : Except Unit (Option GpuMetricRow) :=
  let parts := (pySplit ',' line).map pyStrip
  if parts.length ≥ 8 then do
    let temperature ← gpuField (parts.getD 1 [])
    let utilization ← gpuField (parts.getD 2 [])
    let memory_used ← gpuField (parts.getD 3 [])
    let memory_total ← gpuField (parts.getD 4 [])
    let power_draw ← gpuField (parts.getD 5 [])
    let clock_sm ← gpuField (parts.getD 6 [])
    let clock_memory ← gpuField (parts.getD 7 [])
    pure (some { gname := parts.getD 0 [], temperature := temperature,
                 utilization := utilization, memory_used := memory_used,
                 memory_total := memory_total, power_draw := power_draw,
                 clock_sm := clock_sm, clock_memory := clock_memory })
  else pure none

/-! ### The websocket control command (src/app.py lines 215-248) -/

/-- The option dict `{"gpu": False, "ollama": False, "model": ""}` built
by the websocket handler and passed to `run_benchmark`. -/
structure RunOptions where
  gpu : Bool
  ollama : Bool
  model : PyStr
deriving DecidableEq, Repr

/-- `part.split("=", 1)[1]` (everything after the first `=`). -/
def afterEq (part : PyStr) : PyStr := (pySplit1 '=' part).getD 1 []

/-- One iteration of the option loop of `websocket_endpoint`
(lines 238-245). -/
def applyOptionPart (o : RunOptions) (part0 : PyStr) : RunOptions :=
  let part := pyStrip part0
  if pyStartsWith part "gpu=".data then
    { o with gpu := pyLower (pyStrip (afterEq part)) = "true".data }
  else if pyStartsWith part "ollama=".data then
    { o with ollama := pyLower (pyStrip (afterEq part)) = "true".data }
  else if pyStartsWith part "model=".data then
    { o with model := pyStrip (afterEq part) }
  else o

/-- The `run:` command parser of `websocket_endpoint` (lines 227-248):
`data.split(":")`, the label from the second piece, the options folded
over the remaining pieces; `none` when the text is not a run command. -/
def parseRunCommand (data : PyStr) : Option (PyStr × RunOptions) :=
  if pyStartsWith data "run:".data then
    let parts := pySplit ':' data
    let label := if parts.length > 1 then pyStrip (parts.getD 1 []) else "unnamed".data
    some (label, (parts.drop 2).foldl applyOptionPart ⟨false, false, []⟩)
  else none

/-! ### `clean_ansi_codes` (src/app.py lines 417-424) -/

/-- The ESC character `\x1B` heading every ANSI escape sequence. -/
def escChar : Char := '\x1B'

/-- The class `[@-Z\\-_]` of the ANSI pattern: `@`..`Z` and `\`..`_`. -/
def isAnsiSingle (c : Char) : Bool :=
  (0x40 ≤ c.toNat && c.toNat ≤ 0x5A) || (0x5C ≤ c.toNat && c.toNat ≤ 0x5F)

/-- The CSI parameter class `[0-?]`. -/
def isCsiParam (c : Char) : Bool := 0x30 ≤ c.toNat && c.toNat ≤ 0x3F

/-- The CSI intermediate class (space through solidus). -/
def isCsiInter (c : Char) : Bool := 0x20 ≤ c.toNat && c.toNat ≤ 0x2F

/-- The CSI final class `[@-~]`. -/
def isCsiFinal (c : Char) : Bool := 0x40 ≤ c.toNat && c.toNat ≤ 0x7E

/-- Whether the ANSI pattern of `clean_ansi_codes` — ESC followed by a
single character of `isAnsiSingle`, or by `[`, then zero or more CSI
parameters, zero or more CSI intermediates, and one CSI final — matches
at the head of the string; returns the characters after the match.  The three CSI classes and the final class are pairwise disjoint,
so greedy maximal-munch is exactly the backtracking regex semantics. -/
def tryAnsi : PyStr → Option PyStr
  | [] => none
  | e :: rest =>
    if e = escChar then
      match rest with
      | [] => none
      | c :: t =>
        if c = '[' then
          match (t.dropWhile isCsiParam).dropWhile isCsiInter with
          | f :: r => if isCsiFinal f then some r else none
          | [] => none
        else if isAnsiSingle c then some t
        else none
    else none

theorem tryAnsi_length {s r : PyStr} (h : tryAnsi s = some r) : r.length < s.length := by
  cases s with
  | nil => simp [tryAnsi] at h
  | cons e rest =>
    by_cases he : e = escChar
    · cases rest with
      | nil => simp [tryAnsi, he] at h
      | cons c t =>
        by_cases hc : c = '['
        · have hlen : ((t.dropWhile isCsiParam).dropWhile isCsiInter).length ≤ t.length := by
            have h1 := (List.dropWhile_sublist (l := t) isCsiParam).length_le
            have h2 :=
              (List.dropWhile_sublist (l := t.dropWhile isCsiParam) isCsiInter).length_le
            omega
          cases ht : (t.dropWhile isCsiParam).dropWhile isCsiInter with
          | nil => simp [tryAnsi, he, hc, ht] at h
          | cons f r2 =>
            by_cases hf : isCsiFinal f
            · simp only [tryAnsi, he, hc, ht, hf, if_true, if_pos, Option.some.injEq] at h
              subst h
              rw [ht] at hlen
              simp only [List.length_cons] at hlen ⊢
              omega
            · simp [tryAnsi, he, hc, ht, hf] at h
        · by_cases hs : isAnsiSingle c
          · simp only [tryAnsi, he, hc, hs, if_true, if_false, if_pos,
              Option.some.injEq] at h
            rw [← h]
            simp only [List.length_cons]
            omega
          · simp [tryAnsi, he, hc, hs] at h
    · simp [tryAnsi, he] at h

/-- Structural worker for `ansiSub` (a pattern match consumes at least
the ESC character — see `tryAnsi_length` — so `fuel = s.length`
suffices and the fuel-exhausted arm is unreachable from the wrapper). -/
def ansiSubF : ℕ → PyStr → PyStr
  | 0, _ => []
  | _ + 1, [] => []
  | fuel + 1, c :: t =>
    match tryAnsi (c :: t) with
    | some r => ansiSubF fuel r
    | none => c :: ansiSubF fuel t

/-- The first substitution of `clean_ansi_codes` (lines 419-420):
`ansi_pattern.sub('', text)`, a single left-to-right pass deleting each
non-overlapping match; `re.sub` never re-scans the text it has already
passed over. -/
def ansiSub (s : PyStr) : PyStr := ansiSubF s.length s

/-- Structural worker for `collapseNl`. -/
def collapseNlF : ℕ → PyStr → PyStr
  | 0, _ => []
  | _ + 1, [] => []
  | fuel + 1, c :: t =>
    if c = '\n' then
      (if (t.takeWhile (fun d => d = '\n')).length + 1 ≥ 3 then ['\n', '\n']
       else c :: t.takeWhile (fun d => d = '\n'))
        ++ collapseNlF fuel (t.dropWhile (fun d => d = '\n'))
    else c :: collapseNlF fuel t

/-- The second substitution (line 422): `re.sub(r'\n{3,}', '\n\n', text)`
— each maximal run of at least three newlines becomes exactly two.
Replacement inserts only newlines and the match is maximal, so no new
run can form across a replacement boundary. -/
def collapseNl (s : PyStr) : PyStr := collapseNlF s.length s

/-- `clean_ansi_codes(text)` (src/app.py lines 417-424). -/
def clean_ansi_codes (text : PyStr) : PyStr :=
  pyStrip (collapseNl (ansiSub text))

/-- Whether three consecutive newline characters occur somewhere. -/
def hasTripleNl : PyStr → Bool
  | a :: b :: c :: t => (a = '\n' && b = '\n' && c = '\n') || hasTripleNl (b :: c :: t)
  | _ => false

/-- Whether the ANSI escape pattern matches anywhere in the string. -/
def hasAnsi : PyStr → Bool
  | [] => false
  | c :: t => (tryAnsi (c :: t)).isSome || hasAnsi t

/-- Structural worker for `escScanOk` (same fuel discipline as
`ansiSubF`, with which it walks the string in lockstep). -/
def escScanOkF : ℕ → PyStr → Bool
  | 0, _ => true
  | _ + 1, [] => true
  | fuel + 1, c :: t =>
    match tryAnsi (c :: t) with
    | some r => escScanOkF fuel r
    | none => !(c = escChar) && escScanOkF fuel t

/-- Whether every ESC character the cleaner's left-to-right pass
encounters begins a complete ANSI escape sequence. -/
def escScanOk (s : PyStr) : Bool := escScanOkF s.length s

/-- Whether a string starts with a newline (used to reason about the
boundaries of the collapsed newline runs). -/
def headNl : PyStr → Bool
  | [] => false
  | c :: _ => c = '\n'

/-! ### The run sequencer `run_benchmark` (src/app.py lines 266-470)

The sequencer is modelled as a trace function: it returns the ordered
list of the events it performs (its own broadcasts and file writes)
together with the final `run_metrics` record.  The execution of each
external stage process is abstracted by a `StageOutcome`. -/

/-- The `run_metrics` accumulator (lines 272-281).  The `gpu` entry of
the dict is initialised to empty lists and never mutated by the
sequencer (the monitor task writes only to the log file), so it is
omitted; `date` is the `datetime.now().isoformat()` string, supplied by
the environment. -/
structure RunMetrics where
  rname : PyStr
  date : PyStr
  cpu1Thread : Option ℚ
  cpuAllThreads : Option ℚ
  memoryRead : ℚ
  memoryWrite : ℚ
  diskRead : ℚ
  diskWrite : ℚ
  ollamaTokensPerSec : ℚ
  ollamaLatency : ℚ
  ollamaMemoryMb : ℕ
deriving DecidableEq, Repr

/-- One observable event of the sequencer.  `bcastCpuScore v` stands for
the broadcast of the summary line formatted as
`[label]   CPU Score: v events/sec` with `v` rendered by `:.0f`
(`bcastMemTotal` / `bcastDiskTotal` analogously with `:.1f`); the
float-format rendering itself is left abstract, the event records the
exact value. -/
inductive Ev where
  | bcast (text : PyStr)
  | bcastCpuScore (label : PyStr) (v : ℚ)
  | bcastMemTotal (label : PyStr) (v : ℚ)
  | bcastDiskTotal (label : PyStr) (v : ℚ)
  | writeTxt (path : PyStr) (content : PyStr)
  | writeJson (path : PyStr) (record : RunMetrics)
deriving DecidableEq

/-- `os.path.join` for the relative components used here. -/
def pathJoin (a b : PyStr) : PyStr := a ++ "/".data ++ b

/-- The `f"[{label}] ..."` prefix every sequencer broadcast carries. -/
def wrapMsg (label s : PyStr) : PyStr := "[".data ++ label ++ "] ".data ++ s

/-- `f"[{label}] 🔄 Running {name}..."` (line 356). -/
def msgRunning (label sname : PyStr) : PyStr :=
  wrapMsg label ("🔄 Running ".data ++ sname ++ "...".data)

/-- `f"[{label}] ✅ {name} completed"` (line 435). -/
def msgCompleted (label sname : PyStr) : PyStr :=
  wrapMsg label ("✅ ".data ++ sname ++ " completed".data)

/-- `f"[{label}] ❌ {name} failed: {str(e)}"` (line 438). -/
def msgFailed (label sname emsg : PyStr) : PyStr :=
  wrapMsg label ("❌ ".data ++ sname ++ " failed: ".data ++ emsg)

/-- `f"[{label}] {name}: {line_text}"` (line 375). -/
def msgStageLine (label sname line : PyStr) : PyStr :=
  wrapMsg label (sname ++ ": ".data ++ line)

/-- How one stage's subprocess behaves.  `err` models an exception
raised inside the stage's `try` block (lines 359-435), e.g. the launch
failing; `ok lines` gives the decoded, stripped stdout lines of a
process that ran to completion — the exit status is never consulted, so
a nonzero exit is indistinguishable from success here. -/
inductive StageOutcome where
  | err (emsg : PyStr)
  | ok (lines : List PyStr)

/-- The real-time metric scan of the stage loop (lines 378-385). -/
def liveParseLine (sname : PyStr) (rm : RunMetrics) (line : PyStr) : RunMetrics :=
  if pyContains line "events per second".data then
    match reFloatEventsPerSec line with
    | some q =>
      if pyContains sname "1 thread".data then { rm with cpu1Thread := some q }
      else if pyContains sname "all threads".data then { rm with cpuAllThreads := some q }
      else rm
    | none => rm
  else rm

/-- The Ollama metric scan over a completed stage's lines (lines 402-414). -/
def ollamaLineParse (rm : RunMetrics) (line : PyStr) : RunMetrics :=
  if pyContains line "Tokens/sec:".data then
    match reTokensPerSec line with
    | some q => { rm with ollamaTokensPerSec := q }
    | none => rm
  else if pyContains line "Latency:".data then
    match reLatencyNum line with
    | some q => { rm with ollamaLatency := q }
    | none => rm
  else if pyContains line "Memory:".data && pyContains line "MB".data then
    match reMemoryMbInt line with
    | some n => { rm with ollamaMemoryMb := n }
    | none => rm
  else rm

/-- The end-of-stage parsing and artifact block (lines 391-433): the
events it emits and the updated record.  The `elif` chain dispatches on
the stage name.  (As in `get_runs`, the disk branch reads keys that
`parse_sysbench_disk` never produces, so the disk scalars stay 0.) -/
def stageFinalParse (label runDir sname : PyStr) (lines : List PyStr)
    (rm : RunMetrics) : List Ev × RunMetrics :=
  if pyContains sname "Memory test".data then
    ([], { rm with
           memoryRead := (parse_sysbench_memory lines).getD0 "read_mib_sec".data,
           memoryWrite := (parse_sysbench_memory lines).getD0 "write_mib_sec".data })
  else if pyContains sname "Disk test".data then
    ([], { rm with
           diskRead := (parse_sysbench_disk lines).getD0 "disk_read_mib_s".data,
           diskWrite := (parse_sysbench_disk lines).getD0 "disk_write_mib_s".data })
  else if pyContains sname "Ollama LLM".data then
    let rm1 := lines.foldl ollamaLineParse rm
    let cleaned := clean_ansi_codes (joinNl lines)
    if !(pyStrip cleaned).isEmpty then
      ([Ev.writeTxt (pathJoin runDir "llm_response.txt".data) cleaned,
        Ev.bcast (wrapMsg label "💾 LLM response saved".data)], rm1)
    else ([], rm1)
  else ([], rm)

/-- One iteration of the stage loop (lines 355-439).  On an exception
the `except` arm broadcasts the failure and the loop continues; on a
completed process the per-line broadcasts happen during capture, then
the raw output is written to `<name with spaces replaced>.txt`, then the
final parsing runs, then the completion broadcast. -/
def runStage (label runDir sname : PyStr) (outcome : StageOutcome)
    (rm : RunMetrics) : List Ev × RunMetrics :=
  match outcome with
  | .err e => ([Ev.bcast (msgRunning label sname), Ev.bcast (msgFailed label sname e)], rm)
  | .ok lines =>
    let rm1 := lines.foldl (liveParseLine sname) rm
    let final := stageFinalParse label runDir sname lines rm1
    (Ev.bcast (msgRunning label sname)
       :: (lines.map fun l => Ev.bcast (msgStageLine label sname l))
       ++ Ev.writeTxt (pathJoin runDir (pyReplaceChar ' ' '_' sname ++ ".txt".data))
            (joinNl lines)
       :: (final.1 ++ [Ev.bcast (msgCompleted label sname)]), final.2)

/-- The stage loop over the whole command list, threading the record;
`outcome i` is the behaviour of the i-th stage's subprocess. -/
def runStages (label runDir : PyStr) (outcome : ℕ → StageOutcome) :
    List (PyStr × PyStr) → ℕ → RunMetrics → List Ev × RunMetrics
  | [], _, rm => ([], rm)
  | (sname, _) :: rest, i, rm =>
    let first := runStage label runDir sname (outcome i) rm
    let restRes := runStages label runDir outcome rest (i + 1) first.2
    (first.1 ++ restRes.1, restRes.2)

/-- The result of the `ollama list` subprocess used by the auto-detect
fallback (lines 305-340): it returned successfully with some stdout,
returned nonzero, or raised. -/
inductive OllamaListRes where
  | ok (stdoutText : PyStr)
  | fail
  | exc (emsg : PyStr)

/-- The environment `run_benchmark` reads: `os.cpu_count()`, the runs
directory, the availability flags probed at startup, the `ollama list`
behaviour, the two `datetime.now()` readings, and the text of a metrics
persistence error (used only when `persistOk` is false). -/
structure BenchEnv where
  cpuCount : ℕ
  runsDir : PyStr
  ollamaAvailable : Bool
  gpuAvailable : Bool
  ollamaList : OllamaListRes
  startDate : PyStr
  endDate : PyStr
  persistErr : PyStr

/-- The four always-present stage templates (lines 287-292). -/
def baseCommands (cpuCount : ℕ) (runDir : PyStr) : List (PyStr × PyStr) :=
  [("CPU 1 thread".data, "sysbench cpu --threads=1 --time=20 run".data),
   ("CPU all threads".data,
     "sysbench cpu --threads=".data ++ (toString cpuCount).data ++ " --time=20 run".data),
   ("Memory test".data,
     "sysbench memory --memory-block-size=1M --memory-total-size=10G run".data),
   ("Disk test".data,
     "mkdir -p ".data ++ runDir ++ "/disk && cd ".data ++ runDir
       ++ "/disk && sysbench fileio --file-total-size=5G prepare && sysbench fileio --file-test-mode=seqrd run && sysbench fileio cleanup".data)]

/-- The model-name extraction of the auto-detect fallback
(lines 314-323): strip the stdout, keep the stripped non-empty lines,
skip the header line and any further `NAME` line, take each line's first
whitespace-separated token. -/
def ollamaListModels (modelsText : PyStr) : List PyStr :=
  let lines := ((pySplit '\n' (pyStrip modelsText)).map pyStrip).filter
    (fun l => !l.isEmpty)
  match lines with
  | [] => []
  | _ :: rest =>
    rest.filterMap fun line =>
      if !line.isEmpty && !pyStartsWith line "NAME".data then (pySplitWs line).head?
      else none

/-- The prompt suffix of every `ollama run` stage command. -/
def llmPrompt : PyStr := " 'Explain quantum computing in simple terms.'".data

/-- The conditional Ollama stage construction (lines 294-344): the
broadcasts it emits, and the stage it appends.  Every path through the
enabled-and-available branch appends exactly one `Ollama LLM` stage
(explicit model → auto-detected first model → install fallback →
`echo` placeholder).  The `ollama list` / `ollama pull` subprocesses it
spawns are summarised by `env.ollamaList` and emit no events here. -/
def ollamaResolution (label : PyStr) (opts : RunOptions) (env : BenchEnv) :
    List Ev × List (PyStr × PyStr) :=
  if opts.ollama && env.ollamaAvailable then
    let selected := pyStrip opts.model
    if !selected.isEmpty then
      ([Ev.bcast (wrapMsg label ("🤖 Using selected model: ".data ++ selected))],
       [("Ollama LLM".data, "ollama run ".data ++ selected ++ llmPrompt)])
    else
      let auto := Ev.bcast (wrapMsg label "⚠️ No model selected, auto-detecting...".data)
      match env.ollamaList with
      | .ok stdoutText =>
        match ollamaListModels stdoutText with
        | first :: _ =>
          ([auto, Ev.bcast (wrapMsg label ("🤖 Using available model: ".data ++ first))],
           [("Ollama LLM".data, "ollama run ".data ++ first ++ llmPrompt)])
        | [] =>
          ([auto,
            Ev.bcast (wrapMsg label "⚠️ No Ollama models found. Installing llama3.1...".data)],
           [("Ollama LLM".data, "ollama run llama3.1:8b".data ++ llmPrompt)])
      | .fail =>
        ([auto, Ev.bcast (wrapMsg label "⚠️ Failed to list Ollama models".data)],
         [("Ollama LLM".data, "echo 'Ollama not available'".data)])
      | .exc e =>
        ([auto, Ev.bcast (wrapMsg label ("❌ Error checking Ollama models: ".data ++ e))],
         [("Ollama LLM".data, "echo 'Ollama error occurred'".data)])
  else if opts.ollama then
    ([Ev.bcast (wrapMsg label "⚠️ Ollama not available".data)], [])
  else
    ([Ev.bcast (wrapMsg label "⚠️ Ollama benchmark disabled".data)], [])

/-- The full, ordered stage list of a run: the four base stages plus the
conditional Ollama stage.  A plain function of the options and the
environment — stage construction is deterministic and the list is never
mutated after this point. -/
def stageList (label : PyStr) (opts : RunOptions) (env : BenchEnv) :
    List (PyStr × PyStr) :=
  baseCommands env.cpuCount (pathJoin env.runsDir label) ++ (ollamaResolution label opts env).2

/-- The `run_metrics` dict as initialised at lines 272-281. -/
def initRunMetrics (label date : PyStr) : RunMetrics :=
  ⟨label, date, none, none, 0, 0, 0, 0, 0, 0, 0⟩

/-- The sequencer's events before the stage loop: the two start
broadcasts (lines 283-284), the Ollama model-resolution broadcasts
(lines 294-344), and the GPU-monitoring notice (lines 346-352). -/
def benchPrelude (label : PyStr) (opts : RunOptions) (env : BenchEnv) : List Ev :=
  [Ev.bcast (wrapMsg label ("🚀 Benchmark started at ".data ++ env.startDate)),
   Ev.bcast (wrapMsg label ("📁 Results will be saved to: ".data
     ++ pathJoin env.runsDir label))]
  ++ (ollamaResolution label opts env).1
  ++ (if opts.gpu && env.gpuAvailable then
        [Ev.bcast (wrapMsg label "🎮 GPU monitoring enabled".data)]
      else [Ev.bcast (wrapMsg label "⚠️ GPU monitoring not available".data)])

/-- The sequencer's events after the stage loop, given the final record:
the `metrics.json` dump or its failure report (lines 449-456), the
summary broadcasts with their value-dependent guards (lines 458-467,
Python truthiness: `None` and `0.0` both suppress the CPU line), and the
finish broadcast (line 469). -/
def benchFinale (label : PyStr) (env : BenchEnv) (persistOk : Bool)
    (rm : RunMetrics) : List Ev :=
  (if persistOk then
     [Ev.writeJson (pathJoin (pathJoin env.runsDir label) "metrics.json".data) rm,
      Ev.bcast (wrapMsg label ("💾 Metrics saved to ".data
        ++ pathJoin (pathJoin env.runsDir label) "metrics.json".data))]
   else
     [Ev.bcast (wrapMsg label ("❌ Failed to save metrics: ".data ++ env.persistErr))])
  ++ ([Ev.bcast (wrapMsg label "📊 Benchmark Summary:".data)]
      ++ (match rm.cpuAllThreads with
          | some v => if v ≠ 0 then [Ev.bcastCpuScore label v] else []
          | none => [])
      ++ (if rm.memoryRead > 0 then
            [Ev.bcastMemTotal label (rm.memoryRead + rm.memoryWrite)] else [])
      ++ (if rm.diskRead > 0 then
            [Ev.bcastDiskTotal label (rm.diskRead + rm.diskWrite)] else []))
  ++ [Ev.bcast (wrapMsg label ("✅ Benchmark finished at ".data ++ env.endDate))]

/-- `run_benchmark(label, options, ws)` (lines 266-470) as a trace
function.  `mkdirOk` is whether `os.makedirs(run_dir)` at line 269
succeeds: it is the only statement of the function outside every
`try`/`except` (each stage body, the metrics dump, and `broadcast`
itself contain their exceptions), so its failure — and nothing else —
propagates and aborts the run (`none`).  `outcome i` abstracts the i-th
stage's subprocess, `persistOk` whether the `json.dump` of
`metrics.json` succeeds.  The GPU monitor task runs concurrently and
contributes no events to the sequencer's own trace. -/
def run_benchmark (label : PyStr) (opts : RunOptions) (env : BenchEnv)
    (mkdirOk : Bool) (outcome : ℕ → StageOutcome) (persistOk : Bool) :
    Option (List Ev × RunMetrics) :=
  if !mkdirOk then none
  else
    let stages := runStages label (pathJoin env.runsDir label) outcome
      (stageList label opts env) 0 (initRunMetrics label env.startDate)
    some (benchPrelude label opts env ++ stages.1
       ++ benchFinale label env persistOk stages.2, stages.2)

/-- The trace component of a sequencer result (`[]` for an aborted run). -/
def traceOf (r : Option (List Ev × RunMetrics)) : List Ev :=
  (r.map Prod.fst).getD []

/-- The final-record component of a sequencer result. -/
def recordOf (r : Option (List Ev × RunMetrics)) : RunMetrics :=
  (r.map Prod.snd).getD (initRunMetrics [] [])

/-! ### Claim theorems -/

theorem broadcastFanout_fst (fails : ℕ → Bool) (snap : List ℕ) :
    ∀ (acc live : List ℕ),
      (snap.foldl (fun st c =>
          if fails c then (st.1, removeFirst st.2 c) else (st.1 ++ [c], st.2))
        (acc, live)).1 = acc ++ snap.filter (fun c => !fails c) := by
  induction snap with
  | nil => intro acc live; simp
  | cons c t ih =>
    intro acc live
    by_cases hc : fails c
    · simp [hc, ih, List.filter_cons]
    · simp [hc, ih, List.filter_cons]

/-- C3: one `publish` call of the broadcaster delivers to exactly the
viewers whose delivery does not fail — each viewer independently of the
others — and with three registered viewers of which the middle one
always fails, the two others still receive the message, the failing
viewer is removed from the client list during the same call, and the
next `publish` therefore delivers to exactly the two surviving viewers. -/
theorem broadcaster_failure_isolated (a b v : ℕ) (fails : ℕ → Bool)
    (hab : a ≠ b) (hvb : v ≠ b)
    (hfa : fails a = false) (hfb : fails b = true) (hfv : fails v = false) :
    (∀ clients : List ℕ, (broadcastFanout clients fails).1
        = clients.filter (fun c => !fails c)) ∧
    (broadcastFanout [a, b, v] fails).1 = [a, v] ∧
    (broadcastFanout [a, b, v] fails).2 = [a, v] ∧
    b ∉ (broadcastFanout [a, b, v] fails).2 ∧
    (broadcastFanout (broadcastFanout [a, b, v] fails).2 fails).1 = [a, v] := by
  have hfst : ∀ clients : List ℕ,
      (broadcastFanout clients fails).1 = clients.filter (fun c => !fails c) := by
    intro clients
    simpa using broadcastFanout_fst fails clients [] clients
  have h2 : (broadcastFanout [a, b, v] fails).2 = [a, v] := by
    simp [broadcastFanout, hfa, hfb, hfv, removeFirst, hab]
  refine ⟨hfst, ?_, h2, ?_, ?_⟩
  · rw [hfst]
    simp [List.filter_cons, hfa, hfb, hfv]
  · rw [h2]
    simp only [List.mem_cons, List.not_mem_nil, or_false]
    rintro (h | h)
    · exact hab h.symm
    · exact hvb h.symm
  · rw [h2, hfst]
    simp [List.filter_cons, hfa, hfv]

/-- C3 witness: the scenario at viewers `0, 1, 2` with viewer `1`
failing. -/
theorem broadcaster_failure_isolated_witness :
    (broadcastFanout [0, 1, 2] (fun n => n = 1)).1 = [0, 2] ∧
    (broadcastFanout [0, 1, 2] (fun n => n = 1)).2 = [0, 2] ∧
    (1 : ℕ) ∉ (broadcastFanout [0, 1, 2] (fun n => n = 1)).2 := by
  have h := broadcaster_failure_isolated 0 1 2 (fun n => n = 1)
    (by decide) (by decide) (by decide) (by decide) (by decide)
  exact ⟨h.2.1, h.2.2.1, h.2.2.2.1⟩

/-- C4 counterexample: a telemetry query result whose temperature field
is `[N/A]` and whose other three fields are numeric yields NO sample at
all from the benchmark-time poller `monitor_gpu_during_benchmark` — the
whole sample is discarded by its `except ValueError: pass`, contradicting
the claim that a sample with the temperature absent and the other three
fields populated is produced. -/
theorem telemetry_na_sample_discarded_counterexample :
    monitorGpuParseSample "[N/A], 45, 2048, 8192".data = none := by decide

/-- C4 (amended): the poller that actually runs during benchmarks
discards the entire sample when the temperature field is the `[N/A]`
sentinel; the per-field tolerance the claim describes is implemented
only in `GPUMonitor.get_gpu_metrics`, where such a query result yields a
row with the temperature absent and the remaining fields populated. -/
theorem telemetry_na_per_field_in_gpu_monitor :
    monitorGpuParseSample "[N/A], 45, 2048, 8192".data = none ∧
    get_gpu_metrics_row "NVIDIA GeForce, [N/A], 45, 2048, 8192, 150, 1500, 7000".data
      = .ok (some { gname := "NVIDIA GeForce".data, temperature := none,
                    utilization := some 45, memory_used := some 2048,
                    memory_total := some 8192, power_draw := some 150,
                    clock_sm := some 1500, clock_memory := some 7000 }) :=
  ⟨by decide, by rfl⟩

/-- C5: the stage list is a plain function of the options and the
environment (same inputs, same list); its names are always exactly the
four base stages — CPU 1 thread, CPU all threads, memory, disk, in that
fixed order — with a single `Ollama LLM` stage appended exactly when the
ollama option is set and the tool is available; in particular with
options `{gpu: false, ollama: false}` exactly the four stages run, in
that order (the code has no configuration that excludes the disk stage). -/
theorem stage_list_fixed_base_conditional_llm (label : PyStr) (opts : RunOptions)
    (env : BenchEnv) :
    (stageList label opts env).map Prod.fst
      = ["CPU 1 thread".data, "CPU all threads".data, "Memory test".data,
         "Disk test".data]
        ++ (if opts.ollama && env.ollamaAvailable then ["Ollama LLM".data] else []) ∧
    (∀ m : PyStr, (stageList label ⟨false, false, m⟩ env).map Prod.fst
      = ["CPU 1 thread".data, "CPU all threads".data, "Memory test".data,
         "Disk test".data]) := by
  constructor
  · cases h1 : opts.ollama with
    | false => simp [stageList, ollamaResolution, baseCommands, h1]
    | true =>
      cases h2 : env.ollamaAvailable with
      | false => simp [stageList, ollamaResolution, baseCommands, h1, h2]
      | true =>
        by_cases hs : pyStrip opts.model = []
        · cases hM : env.ollamaList with
          | ok stdoutText =>
            cases hmods : ollamaListModels stdoutText with
            | nil =>
              simp [stageList, ollamaResolution, baseCommands, h1, h2, hs, hM, hmods]
            | cons first rest =>
              simp [stageList, ollamaResolution, baseCommands, h1, h2, hs, hM, hmods]
          | fail => simp [stageList, ollamaResolution, baseCommands, h1, h2, hs, hM]
          | exc e => simp [stageList, ollamaResolution, baseCommands, h1, h2, hs, hM]
        · simp [stageList, ollamaResolution, baseCommands, h1, h2, hs]
  · intro m
    simp [stageList, ollamaResolution, baseCommands]

/-- C2 counterexample: a run whose live parse of the line
`123.45 events per second` stored `cpu1Thread = 123.45` in the document
(first conjunct: that is exactly what the sequencer's stage loop
records) is reloaded by the query interface with `cpu1Thread = none`,
because `get_runs` unconditionally re-parses the stage's `.txt` file —
whose re-parse pattern `events per second:\s*(\d+\.\d+)` does not match
that line — and overwrites the document's value. -/
theorem get_runs_roundtrip_counterexample :
    ((runStage "bench1".data "/app/runs/bench1".data "CPU 1 thread".data
        (.ok ["123.45 events per second".data])
        ⟨"bench1".data, [], none, none, 0, 0, 0, 0, 0, 0, 0⟩).2).cpu1Thread
      = some (mkRat 2469 20) ∧
    (get_runs_scalars
        (some ⟨some (mkRat 2469 20), some 200, 5, 6, 7, 8⟩)
        [("CPU_1_thread.txt".data, "123.45 events per second".data)]).cpu1Thread
      = none ∧
    (none : Option ℚ) ≠ some (mkRat 2469 20) :=
  ⟨by decide, by decide, by decide⟩

/-- C2 (amended): `get_runs` returns the scalar fields of `metrics.json`
unchanged only when no recognised per-stage `.txt` file is present; the
`.txt` re-parsing is unconditional — not a fallback for an absent
document — and its result overwrites the loaded scalars (here shown for
the cpu-1-thread field; the round trip reproduces the document's values
exactly when the raw text re-parses to them). -/
theorem get_runs_unconditional_reparse (doc : RunScalars) (fname content : PyStr)
    (h1 : pyEndsWith fname ".txt".data = true)
    (h2 : pyContains (pyLower fname) "cpu_1_thread".data = true) :
    get_runs_scalars (some doc) [] = doc ∧
    (get_runs_scalars (some doc) [(fname, content)]).cpu1Thread
      = (parse_sysbench_cpu (pySplit '\n' content)).get? "events_per_second".data := by
  constructor
  · rfl
  · simp [get_runs_scalars, get_runs_txtStep, h1, h2]

/-- C2 witness: the empty directory keeps the document's scalars; one
stored `CPU_1_thread.txt` file overwrites the cpu field with its
re-parse. -/
theorem get_runs_unconditional_reparse_witness :
    get_runs_scalars (some ⟨some 1, some 2, 3, 4, 5, 6⟩) []
      = ⟨some 1, some 2, 3, 4, 5, 6⟩ ∧
    (get_runs_scalars (some ⟨some 1, some 2, 3, 4, 5, 6⟩)
        [("CPU_1_thread.txt".data, "".data)]).cpu1Thread
      = (parse_sysbench_cpu (pySplit '\n' "".data)).get? "events_per_second".data :=
  get_runs_unconditional_reparse ⟨some 1, some 2, 3, 4, 5, 6⟩
    "CPU_1_thread.txt".data "".data (by decide) (by decide)

/-- C6: for every stage whose process produced a sequence of output
lines, the stage loop writes the raw captured output, joined by
newlines, to `<stage name with spaces replaced by underscores>.txt` in
the run's directory, and this write sits strictly before the stage's
completion broadcast in the sequencer's trace — for arbitrary lines,
i.e. also when no metrics can be parsed from them. -/
theorem raw_output_persisted_before_completion (label runDir sname : PyStr)
    (lines : List PyStr) (rm : RunMetrics) :
    ∃ pre mid,
      (runStage label runDir sname (.ok lines) rm).1
        = pre
          ++ Ev.writeTxt (pathJoin runDir (pyReplaceChar ' ' '_' sname ++ ".txt".data))
              (joinNl lines)
          :: (mid ++ [Ev.bcast (msgCompleted label sname)]) := by
  refine ⟨Ev.bcast (msgRunning label sname)
      :: (lines.map fun l => Ev.bcast (msgStageLine label sname l)),
    (stageFinalParse label runDir sname lines
      (lines.foldl (liveParseLine sname) rm)).1, ?_⟩
  simp [runStage]

theorem pct_key_ne_write (x : PyStr) :
    ("percentile_".data ++ x ++ "_ms".data) ≠ "write_mib_sec".data := by
  intro h
  have e1 : "percentile_".data = 'p' :: "ercentile_".data := rfl
  have e2 : "write_mib_sec".data = 'w' :: "rite_mib_sec".data := rfl
  rw [e1, e2, List.cons_append, List.cons_append] at h
  injection h with h1 _
  exact absurd h1 (by decide)

theorem pct_key_ne_read (x : PyStr) :
    ("percentile_".data ++ x ++ "_ms".data) ≠ "read_mib_sec".data := by
  intro h
  have e1 : "percentile_".data = 'p' :: "ercentile_".data := rfl
  have e2 : "read_mib_sec".data = 'r' :: "ead_mib_sec".data := rfl
  rw [e1, e2, List.cons_append, List.cons_append] at h
  injection h with h1 _
  exact absurd h1 (by decide)

theorem inv_set_other {m : Metrics} {k : PyStr} {v : ℚ}
    (hW : k ≠ "write_mib_sec".data) (hR : k ≠ "read_mib_sec".data)
    (h : m.get? "write_mib_sec".data ≠ none → m.get? "read_mib_sec".data ≠ none) :
    (m.set k v).get? "write_mib_sec".data ≠ none →
      (m.set k v).get? "read_mib_sec".data ≠ none := by
  rw [Metrics.get?_set_ne _ _ _ _ hW, Metrics.get?_set_ne _ _ _ _ hR]
  exact h

theorem memory_step_inv (m : Metrics) (line : PyStr)
    (h : m.get? "write_mib_sec".data ≠ none → m.get? "read_mib_sec".data ≠ none) :
    (parse_sysbench_memory_step m line).get? "write_mib_sec".data ≠ none →
      (parse_sysbench_memory_step m line).get? "read_mib_sec".data ≠ none := by
  have h1 : ∀ m l, (m.get? "write_mib_sec".data ≠ none → m.get? "read_mib_sec".data ≠ none) →
      ((memRuleTotalOps m l).get? "write_mib_sec".data ≠ none →
        (memRuleTotalOps m l).get? "read_mib_sec".data ≠ none) := by
    intro m l hm
    unfold memRuleTotalOps
    split
    · split
      · exact inv_set_other (by decide) (by decide) hm
      · exact hm
    · exact hm
  have h2 : ∀ m l, (m.get? "write_mib_sec".data ≠ none → m.get? "read_mib_sec".data ≠ none) →
      ((memRuleOpsPerSec m l).get? "write_mib_sec".data ≠ none →
        (memRuleOpsPerSec m l).get? "read_mib_sec".data ≠ none) := by
    intro m l hm
    unfold memRuleOpsPerSec
    split
    · split
      · exact inv_set_other (by decide) (by decide) hm
      · exact hm
    · exact hm
  have h3 : ∀ m l, (m.get? "write_mib_sec".data ≠ none → m.get? "read_mib_sec".data ≠ none) →
      ((memRuleTransferred m l).get? "write_mib_sec".data ≠ none →
        (memRuleTransferred m l).get? "read_mib_sec".data ≠ none) := by
    intro m l hm
    unfold memRuleTransferred
    split
    · split
      · split
        · intro _
          rw [Metrics.get?_set_self]
          simp
        · rename_i hcond
          intro _
          rw [Metrics.get?_set_ne _ _ _ _ (by decide)]
          simp only [Bool.or_eq_false_iff] at hcond
          intro hnone
          rw [hnone] at hcond
          simp at hcond
      · exact hm
    · exact hm
  have h4 : ∀ m l, (m.get? "write_mib_sec".data ≠ none → m.get? "read_mib_sec".data ≠ none) →
      ((memRulePercentile m l).get? "write_mib_sec".data ≠ none →
        (memRulePercentile m l).get? "read_mib_sec".data ≠ none) := by
    intro m l hm
    unfold memRulePercentile
    split
    · dsimp only
      split
      · have hfold : ∀ (pts : List (PyStr × ℚ)) (m : Metrics),
            (m.get? "write_mib_sec".data ≠ none → m.get? "read_mib_sec".data ≠ none) →
            ((pts.foldl (fun acc pt =>
                acc.set ("percentile_".data ++ pt.1 ++ "_ms".data) pt.2) m).get?
                  "write_mib_sec".data ≠ none →
             (pts.foldl (fun acc pt =>
                acc.set ("percentile_".data ++ pt.1 ++ "_ms".data) pt.2) m).get?
                  "read_mib_sec".data ≠ none) := by
          intro pts
          induction pts with
          | nil => intro m hm; exact hm
          | cons p t ih =>
            intro m hm
            exact ih _ (inv_set_other (pct_key_ne_write p.1) (pct_key_ne_read p.1) hm)
        exact hfold _ m hm
      · exact hm
    · exact hm
  have h5 : ∀ m l, (m.get? "write_mib_sec".data ≠ none → m.get? "read_mib_sec".data ≠ none) →
      ((memRuleLatency m l).get? "write_mib_sec".data ≠ none →
        (memRuleLatency m l).get? "read_mib_sec".data ≠ none) := by
    intro m l hm
    unfold memRuleLatency
    split
    · split
      · exact inv_set_other (by decide) (by decide)
          (inv_set_other (by decide) (by decide)
            (inv_set_other (by decide) (by decide) hm))
      · exact hm
    · exact hm
  unfold parse_sysbench_memory_step
  exact h5 _ _ (h4 _ _ (h3 _ _ (h2 _ _ (h1 _ _ h))))

/-- C10: whenever the memory-test extractor's result contains the key
`write_mib_sec`, it also contains `read_mib_sec`: a MiB/sec value on a
`transferred` line is routed to the write field only after the read
field is already populated, and no other rule ever writes either key. -/
theorem memory_write_implies_read (lines : List PyStr)
    (h : (parse_sysbench_memory lines).get? "write_mib_sec".data ≠ none) :
    (parse_sysbench_memory lines).get? "read_mib_sec".data ≠ none := by
  suffices hInv : ∀ (ls : List PyStr) (m : Metrics),
      (m.get? "write_mib_sec".data ≠ none → m.get? "read_mib_sec".data ≠ none) →
      ((ls.foldl parse_sysbench_memory_step m).get? "write_mib_sec".data ≠ none →
        (ls.foldl parse_sysbench_memory_step m).get? "read_mib_sec".data ≠ none) by
    exact hInv lines [] (by simp [Metrics.get?]) h
  intro ls
  induction ls with
  | nil => intro m hm; exact hm
  | cons l t ih =>
    intro m hm
    exact ih _ (memory_step_inv m l hm)

/-- C10 witness: two sysbench-style `transferred` lines populate the
read rate first and then the write rate. -/
theorem memory_write_implies_read_witness :
    (parse_sysbench_memory ["x transferred 1.5 MiB/sec".data,
        "y transferred 2.5 MiB/sec".data]).get? "write_mib_sec".data ≠ none ∧
    (parse_sysbench_memory ["x transferred 1.5 MiB/sec".data,
        "y transferred 2.5 MiB/sec".data]).get? "read_mib_sec".data ≠ none :=
  ⟨by decide, memory_write_implies_read _ (by decide)⟩

/-- No trigger substring of the CPU tool kind is present in the
(stripped) line. -/
def cpuNoRule (line : PyStr) : Bool :=
  !pyContains line "total number of events".data &&
  !pyContains line "events per second".data &&
  !(pyContains line "total time:".data && pyContains line "s".data) &&
  !(pyContains line "min:".data && pyContains line "avg:".data
      && pyContains line "max:".data) &&
  !pyContains line "threads fairness:".data

/-- No trigger substring of the memory tool kind is present. -/
def memNoRule (line : PyStr) : Bool :=
  !pyContains line "total number of operations".data &&
  !pyContains line "operations per second".data &&
  !pyContains line "transferred".data &&
  !(pyContains line "Percentile".data && pyContains line "ms".data) &&
  !(pyContains line "min:".data && pyContains line "avg:".data
      && pyContains line "max:".data)

/-- No trigger substring of the disk tool kind is present. -/
def diskNoRule (line : PyStr) : Bool :=
  !pyContains line "total number of events".data &&
  !pyContains line "operations per second".data &&
  !pyContains line "read, MiB/s".data &&
  !pyContains line "written, MiB/s".data &&
  !(pyContains line "min:".data && pyContains line "avg:".data
      && pyContains line "max:".data) &&
  !pyContains line "File size".data &&
  !pyContains line "Block size".data

/-- No trigger substring of the telemetry-log kind is present. -/
def gpuNoRule (line : PyStr) : Bool :=
  !pyContains line "Temperature:".data &&
  !pyContains line "Utilization:".data &&
  !pyContains line "GPU Memory:".data

/-- C7: each Metric Extractor tool kind is a pure, stateless function of
its input lines — the parser folds a per-line step from the empty
mapping, so parsing the same captured output twice yields identical
mappings (first group), it can be fed incrementally line by line or in
one batch with the same result (second group), and a line that matches
no rule of its kind contributes nothing to the mapping (third group). -/
theorem metric_extractor_idempotent_pure (lines l1 l2 : List PyStr)
    (line : PyStr) (m : Metrics) (acc : GpuLogAcc)
    (hc : cpuNoRule (pyStrip line) = true) (hm : memNoRule (pyStrip line) = true)
    (hd : diskNoRule (pyStrip line) = true) (hg : gpuNoRule line = true) :
    (parse_sysbench_cpu lines = parse_sysbench_cpu lines ∧
     parse_sysbench_memory lines = parse_sysbench_memory lines ∧
     parse_sysbench_disk lines = parse_sysbench_disk lines ∧
     parse_gpu_metrics lines = parse_gpu_metrics lines) ∧
    (parse_sysbench_cpu (l1 ++ l2)
        = l2.foldl parse_sysbench_cpu_step (parse_sysbench_cpu l1) ∧
     parse_sysbench_memory (l1 ++ l2)
        = l2.foldl parse_sysbench_memory_step (parse_sysbench_memory l1) ∧
     parse_sysbench_disk (l1 ++ l2)
        = l2.foldl parse_sysbench_disk_step (parse_sysbench_disk l1) ∧
     (l1 ++ l2).foldl parse_gpu_metrics_step ⟨[], [], [], [], []⟩
        = l2.foldl parse_gpu_metrics_step
            (l1.foldl parse_gpu_metrics_step ⟨[], [], [], [], []⟩)) ∧
    (parse_sysbench_cpu_step m line = m ∧
     parse_sysbench_memory_step m line = m ∧
     parse_sysbench_disk_step m line = m ∧
     parse_gpu_metrics_step acc line = acc) := by
  refine ⟨⟨rfl, rfl, rfl, rfl⟩, ⟨?_, ?_, ?_, ?_⟩, ⟨?_, ?_, ?_, ?_⟩⟩
  · simp [parse_sysbench_cpu, List.foldl_append]
  · simp [parse_sysbench_memory, List.foldl_append]
  · simp [parse_sysbench_disk, List.foldl_append]
  · simp [List.foldl_append]
  · simp only [cpuNoRule, Bool.and_eq_true, Bool.not_eq_true'] at hc
    obtain ⟨⟨⟨⟨c1, c2⟩, c3⟩, c4⟩, c5⟩ := hc
    simp [parse_sysbench_cpu_step, c1, c2, c3, c4, c5]
  · simp only [memNoRule, Bool.and_eq_true, Bool.not_eq_true'] at hm
    obtain ⟨⟨⟨⟨c1, c2⟩, c3⟩, c4⟩, c5⟩ := hm
    simp [parse_sysbench_memory_step, memRuleTotalOps, memRuleOpsPerSec,
      memRuleTransferred, memRulePercentile, memRuleLatency, c1, c2, c3, c4, c5]
  · simp only [diskNoRule, Bool.and_eq_true, Bool.not_eq_true'] at hd
    obtain ⟨⟨⟨⟨⟨⟨c1, c2⟩, c3⟩, c4⟩, c5⟩, c6⟩, c7⟩ := hd
    simp [parse_sysbench_disk_step, c1, c2, c3, c4, c5, c6, c7]
  · simp only [gpuNoRule, Bool.and_eq_true, Bool.not_eq_true'] at hg
    obtain ⟨⟨c1, c2⟩, c3⟩ := hg
    simp [parse_gpu_metrics_step, c1, c2, c3]

/-- C7 witness: the line `:-)` triggers no rule of any kind and leaves
any parser state unchanged. -/
theorem metric_extractor_idempotent_pure_witness :
    cpuNoRule (pyStrip ":-)".data) = true ∧
    (parse_sysbench_cpu_step [] ":-)".data = [] ∧
     parse_sysbench_memory_step [] ":-)".data = [] ∧
     parse_sysbench_disk_step [] ":-)".data = [] ∧
     parse_gpu_metrics_step ⟨[], [], [], [], []⟩ ":-)".data = ⟨[], [], [], [], []⟩) :=
  ⟨by decide,
   (metric_extractor_idempotent_pure [] [] [] ":-)".data [] ⟨[], [], [], [], []⟩
      (by decide) (by decide) (by decide) (by decide)).2.2⟩

theorem pySplit_single {sep : Char} {A : PyStr} (h : sep ∉ A) :
    pySplit sep A = [A] := by
  induction A with
  | nil => rfl
  | cons a t ih =>
    simp only [List.mem_cons, not_or] at h
    have ha : ¬(a = sep) := fun hh => h.1 hh.symm
    simp [pySplit, ha, ih h.2]

theorem pySplit_append {sep : Char} {A : PyStr} (B : PyStr) (h : sep ∉ A) :
    pySplit sep (A ++ sep :: B) = A :: pySplit sep B := by
  induction A with
  | nil => simp [pySplit]
  | cons a t ih =>
    simp only [List.mem_cons, not_or] at h
    have ha : ¬(a = sep) := fun hh => h.1 hh.symm
    simp [pySplit, ha, ih h.2]

theorem pyStartsWith_nil (s : PyStr) : pyStartsWith s [] = true := by
  cases s <;> rfl

theorem pyStartsWith_cons (c : Char) (s : PyStr) (d : Char) (p : PyStr) :
    pyStartsWith (c :: s) (d :: p) = (decide (c = d) && pyStartsWith s p) := rfl

theorem pyStartsWith_append (p s : PyStr) : pyStartsWith (p ++ s) p = true := by
  induction p with
  | nil => exact pyStartsWith_nil s
  | cons c t ih => simp [pyStartsWith_cons, ih]

theorem pyStartsWith_cons_of_ne {c d : Char} (hne : c ≠ d) (s p : PyStr) :
    pyStartsWith (c :: s) (d :: p) = false := by
  simp [pyStartsWith_cons, hne]

/-- A list whose `dropWhile` is itself (no dropped head) stays fixed
when another such list is appended: `dropWhile` only strips a prefix. -/
theorem dropWhile_append_left {p : Char → Bool} (u v : List Char)
    (hu : u.dropWhile p = u) (hv : v.dropWhile p = v) :
    (u ++ v).dropWhile p = u ++ v := by
  cases u with
  | nil => simpa using hv
  | cons a t =>
    have pa : p a = false := by
      by_contra hpa
      have hpa' : p a = true := by simpa using hpa
      rw [List.dropWhile_cons, if_pos hpa'] at hu
      have := congrArg List.length hu
      have hle := (List.dropWhile_sublist (l := t) p).length_le
      simp only [List.length_cons] at this
      omega
    rw [List.cons_append, List.dropWhile_cons, if_neg (by simp [pa])]

/-- C9 counterexample: in the well-formed command
`run:bench1:model=llama3.1:8b`, the supplied model name `llama3.1:8b`
contains a colon, and because the handler tokenises the whole command by
splitting on `:` before option parsing, the parsed model option is
`llama3.1` — not the full name supplied. -/
theorem run_command_colon_truncates_model :
    parseRunCommand "run:bench1:model=llama3.1:8b".data
      = some ("bench1".data, ⟨false, false, "llama3.1".data⟩) ∧
    "llama3.1".data ≠ "llama3.1:8b".data :=
  ⟨by decide, by decide⟩

/-- C9 (amended): for a well-formed control command whose label and
model name contain no colon (and no surrounding whitespace) and whose
`gpu`/`ollama` values are the literals `true`/`false`, the parser starts
a run with exactly the supplied label, the gpu option true exactly when
the gpu value is `true`, the ollama option true exactly when the ollama
value is `true`, and the model option equal to the supplied name; a name
containing `:` is truncated at its first colon (see the counterexample). -/
theorem run_command_parse_amended (label g o m : PyStr)
    (hlc : ':' ∉ label) (hmc : ':' ∉ m)
    (hl1 : label.dropWhile isPySpace = label)
    (hl2 : label.reverse.dropWhile isPySpace = label.reverse)
    (hm1 : m.dropWhile isPySpace = m)
    (hm2 : m.reverse.dropWhile isPySpace = m.reverse)
    (hg : g = "true".data ∨ g = "false".data)
    (ho : o = "true".data ∨ o = "false".data) :
    parseRunCommand ("run:".data ++ label ++ ":gpu=".data ++ g ++ ":ollama=".data ++ o
        ++ ":model=".data ++ m)
      = some (label,
          ⟨decide (g = "true".data), decide (o = "true".data), m⟩) := by
  have hstripl : pyStrip label = label := by
    unfold pyStrip
    rw [hl1, hl2, List.reverse_reverse]
  have hstripm : pyStrip m = m := by
    unfold pyStrip
    rw [hm1, hm2, List.reverse_reverse]
  have hpart : pyStrip ("model=".data ++ m) = "model=".data ++ m := by
    unfold pyStrip
    rw [dropWhile_append_left _ _ (by decide) hm1, List.reverse_append,
      dropWhile_append_left _ _ hm2 (by decide), List.reverse_append,
      List.reverse_reverse, List.reverse_reverse]
  have happ : ∀ opts0 : RunOptions,
      applyOptionPart opts0 ("model=".data ++ m)
        = { opts0 with model := pyStrip m } := by
    intro opts0
    have f1 : pyStartsWith ("model=".data ++ m) "gpu=".data = false := by
      show pyStartsWith ('m' :: ("odel=".data ++ m)) ('g' :: "pu=".data) = false
      exact pyStartsWith_cons_of_ne (by decide) _ _
    have f2 : pyStartsWith ("model=".data ++ m) "ollama=".data = false := by
      show pyStartsWith ('m' :: ("odel=".data ++ m)) ('o' :: "llama=".data) = false
      exact pyStartsWith_cons_of_ne (by decide) _ _
    have f3 : pyStartsWith ("model=".data ++ m) "model=".data = true :=
      pyStartsWith_append "model=".data m
    have f4 : afterEq ("model=".data ++ m) = m := rfl
    unfold applyOptionPart
    rw [hpart]
    dsimp only
    rw [f1, f2, f3, f4]
    simp
  have hg' : ':' ∉ g := by rcases hg with rfl | rfl <;> decide
  have ho' : ':' ∉ o := by rcases ho with rfl | rfl <;> decide
  have hnm : ':' ∉ ("model=".data ++ m) := by
    intro hmem
    rcases List.mem_append.mp hmem with h | h
    · exact absurd h (by decide)
    · exact hmc h
  have hga : ':' ∉ ("gpu=".data ++ g) := by
    intro hmem
    rcases List.mem_append.mp hmem with h | h
    · exact absurd h (by decide)
    · exact hg' h
  have hoa : ':' ∉ ("ollama=".data ++ o) := by
    intro hmem
    rcases List.mem_append.mp hmem with h | h
    · exact absurd h (by decide)
    · exact ho' h
  have b0 : "run:".data = "run".data ++ [':'] := rfl
  have b1 : ":gpu=".data = ':' :: "gpu=".data := rfl
  have b2 : ":ollama=".data = ':' :: "ollama=".data := rfl
  have b3 : ":model=".data = ':' :: "model=".data := rfl
  have e : "run:".data ++ label ++ ":gpu=".data ++ g ++ ":ollama=".data ++ o
        ++ ":model=".data ++ m
      = "run".data ++ ':' :: (label ++ ':' :: (("gpu=".data ++ g)
          ++ ':' :: (("ollama=".data ++ o) ++ ':' :: ("model=".data ++ m)))) := by
    simp
  have hsplit : pySplit ':' ("run:".data ++ label ++ ":gpu=".data ++ g
        ++ ":ollama=".data ++ o ++ ":model=".data ++ m)
      = ["run".data, label, "gpu=".data ++ g, "ollama=".data ++ o,
         "model=".data ++ m] := by
    rw [e, pySplit_append _ (by decide), pySplit_append _ hlc,
      pySplit_append _ hga, pySplit_append _ hoa, pySplit_single hnm]
  have hstart : pyStartsWith ("run:".data ++ label ++ ":gpu=".data ++ g
        ++ ":ollama=".data ++ o ++ ":model=".data ++ m) "run:".data = true :=
    pyStartsWith_append "run:".data _
  unfold parseRunCommand
  split
  · rw [hsplit]
    show some (pyStrip label,
        applyOptionPart (applyOptionPart (applyOptionPart ⟨false, false, []⟩
          ("gpu=".data ++ g)) ("ollama=".data ++ o)) ("model=".data ++ m))
      = some (label, ⟨decide (g = "true".data), decide (o = "true".data), m⟩)
    rcases hg with rfl | rfl <;> rcases ho with rfl | rfl
    · have s1 : applyOptionPart ⟨false, false, []⟩ ("gpu=".data ++ "true".data)
          = ⟨true, false, []⟩ := by decide
      have s2 : applyOptionPart (⟨true, false, []⟩ : RunOptions)
          ("ollama=".data ++ "true".data) = ⟨true, true, []⟩ := by decide
      rw [s1, s2, happ, hstripl, hstripm]
      simp
    · have s1 : applyOptionPart ⟨false, false, []⟩ ("gpu=".data ++ "true".data)
          = ⟨true, false, []⟩ := by decide
      have s2 : applyOptionPart (⟨true, false, []⟩ : RunOptions)
          ("ollama=".data ++ "false".data) = ⟨true, false, []⟩ := by decide
      rw [s1, s2, happ, hstripl, hstripm]
      simp
    · have s1 : applyOptionPart ⟨false, false, []⟩ ("gpu=".data ++ "false".data)
          = ⟨false, false, []⟩ := by decide
      have s2 : applyOptionPart (⟨false, false, []⟩ : RunOptions)
          ("ollama=".data ++ "true".data) = ⟨false, true, []⟩ := by decide
      rw [s1, s2, happ, hstripl, hstripm]
      simp
    · have s1 : applyOptionPart ⟨false, false, []⟩ ("gpu=".data ++ "false".data)
          = ⟨false, false, []⟩ := by decide
      have s2 : applyOptionPart (⟨false, false, []⟩ : RunOptions)
          ("ollama=".data ++ "false".data) = ⟨false, false, []⟩ := by decide
      rw [s1, s2, happ, hstripl, hstripm]
      simp
  · rename_i hfalse
    exact absurd hstart hfalse

/-- C9 witness: the command `run:bench1:gpu=true:ollama=false:model=llama3`
parses to label `bench1`, gpu on, ollama off, model `llama3`. -/
theorem run_command_parse_amended_witness :
    parseRunCommand ("run:".data ++ "bench1".data ++ ":gpu=".data ++ "true".data
        ++ ":ollama=".data ++ "false".data ++ ":model=".data ++ "llama3".data)
      = some ("bench1".data,
          ⟨decide ("true".data = "true".data), decide ("false".data = "true".data),
           "llama3".data⟩) :=
  run_command_parse_amended "bench1".data "true".data "false".data "llama3".data
    (by decide) (by decide) (by decide) (by decide) (by decide) (by decide)
    (Or.inl rfl) (Or.inr rfl)

theorem runStages_running_mem (label runDir : PyStr) (outcome : ℕ → StageOutcome)
    (cmds : List (PyStr × PyStr)) :
    ∀ (i : ℕ) (rm : RunMetrics) (nc : PyStr × PyStr), nc ∈ cmds →
      Ev.bcast (msgRunning label nc.1)
        ∈ (runStages label runDir outcome cmds i rm).1 := by
  induction cmds with
  | nil =>
    intro i rm nc h
    simp at h
  | cons c rest ih =>
    intro i rm nc h
    obtain ⟨sname, cmd⟩ := c
    rcases List.mem_cons.mp h with h1 | h2
    · subst h1
      simp only [runStages]
      apply List.mem_append_left
      cases outcome i <;> simp [runStage]
    · simp only [runStages]
      exact List.mem_append_right _ (ih (i + 1) _ nc h2)

/-- C1: with the run directory created, the sequencer completes for
EVERY assignment of stage outcomes — exceptions and nonzero exits
included: every stage in the stage list still gets its "Running"
broadcast (so no stage's failure prevents a later stage from starting),
the final structured record is written to the run directory's
`metrics.json` whenever the dump succeeds, and the finish event is
broadcast; a failure to create the run directory — and nothing else —
is fatal and aborts the run before any event. -/
theorem run_sequencer_resilient (label : PyStr) (opts : RunOptions) (env : BenchEnv)
    (outcome : ℕ → StageOutcome) (persistOk : Bool) :
    run_benchmark label opts env false outcome persistOk = none ∧
    (run_benchmark label opts env true outcome persistOk).isSome = true ∧
    (∀ nc ∈ stageList label opts env,
      Ev.bcast (msgRunning label nc.1)
        ∈ traceOf (run_benchmark label opts env true outcome persistOk)) ∧
    (persistOk = true →
      Ev.writeJson (pathJoin (pathJoin env.runsDir label) "metrics.json".data)
          (recordOf (run_benchmark label opts env true outcome persistOk))
        ∈ traceOf (run_benchmark label opts env true outcome persistOk)) ∧
    Ev.bcast (wrapMsg label ("✅ Benchmark finished at ".data ++ env.endDate))
      ∈ traceOf (run_benchmark label opts env true outcome persistOk) := by
  refine ⟨rfl, rfl, ?_, ?_, ?_⟩
  · intro nc hnc
    show Ev.bcast (msgRunning label nc.1)
      ∈ benchPrelude label opts env
        ++ (runStages label (pathJoin env.runsDir label) outcome
              (stageList label opts env) 0 (initRunMetrics label env.startDate)).1
          ++ benchFinale label env persistOk
              (runStages label (pathJoin env.runsDir label) outcome
                (stageList label opts env) 0 (initRunMetrics label env.startDate)).2
    exact List.mem_append_left _ (List.mem_append_right _
      (runStages_running_mem label (pathJoin env.runsDir label) outcome
        (stageList label opts env) 0 (initRunMetrics label env.startDate) nc hnc))
  · intro hp
    subst hp
    show Ev.writeJson (pathJoin (pathJoin env.runsDir label) "metrics.json".data)
        (runStages label (pathJoin env.runsDir label) outcome
          (stageList label opts env) 0 (initRunMetrics label env.startDate)).2
      ∈ benchPrelude label opts env
        ++ (runStages label (pathJoin env.runsDir label) outcome
              (stageList label opts env) 0 (initRunMetrics label env.startDate)).1
          ++ benchFinale label env true
              (runStages label (pathJoin env.runsDir label) outcome
                (stageList label opts env) 0 (initRunMetrics label env.startDate)).2
    apply List.mem_append_right
    simp [benchFinale]
  · show Ev.bcast (wrapMsg label ("✅ Benchmark finished at ".data ++ env.endDate))
      ∈ benchPrelude label opts env
        ++ (runStages label (pathJoin env.runsDir label) outcome
              (stageList label opts env) 0 (initRunMetrics label env.startDate)).1
          ++ benchFinale label env persistOk
              (runStages label (pathJoin env.runsDir label) outcome
                (stageList label opts env) 0 (initRunMetrics label env.startDate)).2
    apply List.mem_append_right
    cases persistOk <;> simp [benchFinale]

/-- C1 witness: a concrete run whose first stage raises; the run is not
aborted, the second stage's "Running" broadcast is in the trace, the
record is written to `metrics.json`, and a run with the directory
creation failing returns nothing. -/
theorem run_sequencer_resilient_witness :
    run_benchmark "bench1".data ⟨false, false, []⟩
        ⟨4, "/app/runs".data, false, false, .fail, "D1".data, "D2".data, "E".data⟩
        false (fun i => if i = 0 then .err "boom".data else .ok []) true = none ∧
    Ev.bcast (msgRunning "bench1".data "CPU all threads".data)
      ∈ traceOf (run_benchmark "bench1".data ⟨false, false, []⟩
          ⟨4, "/app/runs".data, false, false, .fail, "D1".data, "D2".data, "E".data⟩
          true (fun i => if i = 0 then .err "boom".data else .ok []) true) ∧
    Ev.writeJson (pathJoin (pathJoin "/app/runs".data "bench1".data) "metrics.json".data)
        (recordOf (run_benchmark "bench1".data ⟨false, false, []⟩
          ⟨4, "/app/runs".data, false, false, .fail, "D1".data, "D2".data, "E".data⟩
          true (fun i => if i = 0 then .err "boom".data else .ok []) true))
      ∈ traceOf (run_benchmark "bench1".data ⟨false, false, []⟩
          ⟨4, "/app/runs".data, false, false, .fail, "D1".data, "D2".data, "E".data⟩
          true (fun i => if i = 0 then .err "boom".data else .ok []) true) := by
  have h := run_sequencer_resilient "bench1".data ⟨false, false, []⟩
    ⟨4, "/app/runs".data, false, false, .fail, "D1".data, "D2".data, "E".data⟩
    (fun i => if i = 0 then .err "boom".data else .ok []) true
  exact ⟨h.1,
    h.2.2.1 ("CPU all threads".data,
      "sysbench cpu --threads=".data ++ (toString 4).data ++ " --time=20 run".data)
      (by decide),
    h.2.2.2.1 rfl⟩

/-! ### The ANSI cleaner's output: no escape splice caveat, collapsed runs -/

theorem hasTripleNl_nil : hasTripleNl [] = false := rfl

theorem hasTripleNl_one (a : Char) : hasTripleNl [a] = false := rfl

theorem hasTripleNl_two (a b : Char) : hasTripleNl [a, b] = false := rfl

theorem hasTripleNl_eq (a b c : Char) (t : PyStr) :
    hasTripleNl (a :: b :: c :: t)
      = ((a = '\n' && b = '\n' && c = '\n') || hasTripleNl (b :: c :: t)) := rfl

theorem hasTripleNl_cons_true (c : Char) {l : PyStr} (h : hasTripleNl l = true) :
    hasTripleNl (c :: l) = true := by
  cases l with
  | nil => rw [hasTripleNl_nil] at h; exact Bool.noConfusion h
  | cons a t =>
    cases t with
    | nil => rw [hasTripleNl_one] at h; exact Bool.noConfusion h
    | cons b t' => rw [hasTripleNl_eq, h, Bool.or_true]

theorem hasTripleNl_nl_cons (l : PyStr) (h : headNl l = false) :
    hasTripleNl ('\n' :: l) = hasTripleNl l := by
  cases l with
  | nil => rfl
  | cons a t =>
    have ha : (a = '\n' : Bool) = false := h
    cases t with
    | nil => rw [hasTripleNl_two, hasTripleNl_one]
    | cons b t' =>
      rw [hasTripleNl_eq]
      simp [ha]

theorem hasTripleNl_two_nl (l : PyStr) (h : headNl l = false) :
    hasTripleNl ('\n' :: '\n' :: l) = hasTripleNl l := by
  cases l with
  | nil => rw [hasTripleNl_two, hasTripleNl_nil]
  | cons a t =>
    have ha : (a = '\n' : Bool) = false := h
    rw [hasTripleNl_eq, hasTripleNl_nl_cons _ h]
    simp [ha]

theorem hasTripleNl_cons_of_not_nl (c : Char) (l : PyStr)
    (h : (c = '\n' : Bool) = false) :
    hasTripleNl (c :: l) = hasTripleNl l := by
  cases l with
  | nil => rw [hasTripleNl_one, hasTripleNl_nil]
  | cons a t =>
    cases t with
    | nil => rw [hasTripleNl_two, hasTripleNl_one]
    | cons b t' =>
      rw [hasTripleNl_eq]
      simp [h]

theorem headNl_dropWhileNl (t : PyStr) :
    headNl (t.dropWhile (fun d => d = '\n')) = false := by
  induction t with
  | nil => rfl
  | cons a t ih =>
    by_cases ha : a = '\n'
    · simp [List.dropWhile_cons, ha, ih]
    · simp [List.dropWhile_cons, ha, headNl]

theorem headNl_collapseNlF (fuel : ℕ) (s : PyStr) (h : headNl s = false) :
    headNl (collapseNlF fuel s) = false := by
  cases fuel with
  | zero => rfl
  | succ f =>
    cases s with
    | nil => rfl
    | cons c t =>
      have hc : ¬(c = '\n') := of_decide_eq_false h
      simp [collapseNlF, hc, headNl]

theorem mem_collapseNlF (fuel : ℕ) :
    ∀ (s : PyStr) (a : Char), a ∈ collapseNlF fuel s → a ∈ s ∨ a = '\n' := by
  induction fuel with
  | zero => intro s a h; simp [collapseNlF] at h
  | succ f ih =>
    intro s a h
    cases s with
    | nil => simp [collapseNlF] at h
    | cons c t =>
      by_cases hc : c = '\n'
      · rw [show collapseNlF (f + 1) (c :: t)
            = (if (t.takeWhile (fun d => d = '\n')).length + 1 ≥ 3 then ['\n', '\n']
               else c :: t.takeWhile (fun d => d = '\n'))
              ++ collapseNlF f (t.dropWhile (fun d => d = '\n'))
          from by simp [collapseNlF, hc]] at h
        rcases List.mem_append.mp h with h1 | h2
        · split at h1
          · right
            rcases List.mem_cons.mp h1 with h3 | h3
            · exact h3
            · simpa using h3
          · rcases List.mem_cons.mp h1 with h3 | h3
            · left; exact h3 ▸ List.mem_cons_self c t
            · have h4 := List.mem_takeWhile_imp h3
              simp only [decide_eq_true_eq] at h4
              right; exact h4
        · rcases ih _ a h2 with h3 | h3
          · left
            exact List.mem_cons_of_mem _ ((List.dropWhile_suffix _).subset h3)
          · right; exact h3
      · rw [show collapseNlF (f + 1) (c :: t) = c :: collapseNlF f t
          from by simp [collapseNlF, hc]] at h
        rcases List.mem_cons.mp h with h3 | h3
        · left; exact h3 ▸ List.mem_cons_self c t
        · rcases ih _ a h3 with h4 | h4
          · left; exact List.mem_cons_of_mem _ h4
          · right; exact h4

theorem collapseNlF_noTriple (fuel : ℕ) :
    ∀ s : PyStr, hasTripleNl (collapseNlF fuel s) = false := by
  induction fuel with
  | zero => intro s; rfl
  | succ f ih =>
    intro s
    cases s with
    | nil => rfl
    | cons c t =>
      have hhead : headNl (collapseNlF f (t.dropWhile fun d => d = '\n')) = false :=
        headNl_collapseNlF f _ (headNl_dropWhileNl t)
      by_cases hc : c = '\n'
      · rw [show collapseNlF (f + 1) (c :: t)
            = (if (t.takeWhile (fun d => d = '\n')).length + 1 ≥ 3 then ['\n', '\n']
               else c :: t.takeWhile (fun d => d = '\n'))
              ++ collapseNlF f (t.dropWhile (fun d => d = '\n'))
          from by simp [collapseNlF, hc]]
        split
        · rw [List.cons_append, List.cons_append, List.nil_append,
            hasTripleNl_two_nl _ hhead]
          exact ih _
        · rename_i hlen
          subst hc
          cases htw : t.takeWhile (fun d => d = '\n') with
          | nil =>
            simp only [List.cons_append, List.nil_append]
            rw [hasTripleNl_nl_cons _ hhead]
            exact ih _
          | cons x tw' =>
            have hx3 : x ∈ t.takeWhile (fun d => d = '\n') := by
              rw [htw]; exact List.mem_cons_self x tw'
            have hx4 := List.mem_takeWhile_imp hx3
            simp only [decide_eq_true_eq] at hx4
            have htw' : tw' = [] := by
              rw [htw] at hlen
              cases tw' with
              | nil => rfl
              | cons y ty => simp at hlen
            subst hx4 htw'
            simp only [List.cons_append, List.nil_append]
            rw [hasTripleNl_two_nl _ hhead]
            exact ih _
      · rw [show collapseNlF (f + 1) (c :: t) = c :: collapseNlF f t
          from by simp [collapseNlF, hc]]
        rw [hasTripleNl_cons_of_not_nl _ _ (decide_eq_false hc)]
        exact ih _

theorem triple_infix_of_hasTripleNl :
    ∀ {l : PyStr}, hasTripleNl l = true → ['\n', '\n', '\n'] <:+: l := by
  intro l
  induction l with
  | nil => intro h; rw [hasTripleNl_nil] at h; exact Bool.noConfusion h
  | cons a t ih =>
    intro h
    cases t with
    | nil => rw [hasTripleNl_one] at h; exact Bool.noConfusion h
    | cons b t' =>
      cases t' with
      | nil => rw [hasTripleNl_two] at h; exact Bool.noConfusion h
      | cons c t'' =>
        rw [hasTripleNl_eq] at h
        rcases Bool.or_eq_true_iff.mp h with h1 | h2
        · obtain ⟨⟨ha, hb⟩, hc⟩ :
              (a = '\n' ∧ b = '\n') ∧ c = '\n' := by simpa using h1
          subst ha; subst hb; subst hc
          exact ⟨[], t'', rfl⟩
        · obtain ⟨u, v, huv⟩ := ih h2
          exact ⟨a :: u, v, by rw [← huv]; simp⟩

theorem hasTripleNl_of_triple_within :
    ∀ {l : PyStr}, ['\n', '\n', '\n'] <:+: l → hasTripleNl l = true := by
  intro l h
  obtain ⟨s, t, heq⟩ := h
  subst heq
  induction s with
  | nil =>
    simp only [List.nil_append, List.cons_append]
    rw [hasTripleNl_eq]
    simp
  | cons x s' ih =>
    simp only [List.cons_append]
    exact hasTripleNl_cons_true x ih

theorem noTriple_within {l₁ l₂ : PyStr} (h : l₁ <:+: l₂)
    (h2 : hasTripleNl l₂ = false) : hasTripleNl l₁ = false := by
  cases h1 : hasTripleNl l₁ with
  | false => rfl
  | true =>
    have h3 := hasTripleNl_of_triple_within ((triple_infix_of_hasTripleNl h1).trans h)
    rw [h2] at h3
    exact Bool.noConfusion h3

theorem pyStrip_within (s : PyStr) : pyStrip s <:+: s := by
  obtain ⟨u, hu⟩ := List.dropWhile_suffix (l := s) (p := isPySpace)
  obtain ⟨v, hv⟩ :=
    List.dropWhile_suffix (l := (s.dropWhile isPySpace).reverse) (p := isPySpace)
  have h1 := congrArg List.reverse hv
  rw [List.reverse_append, List.reverse_reverse] at h1
  refine ⟨u, v.reverse, ?_⟩
  show (u ++ ((s.dropWhile isPySpace).reverse.dropWhile isPySpace).reverse)
      ++ v.reverse = s
  rw [List.append_assoc, h1, hu]

theorem escScan_no_esc (fuel : ℕ) :
    ∀ s : PyStr, escScanOkF fuel s = true → escChar ∉ ansiSubF fuel s := by
  induction fuel with
  | zero => intro s h; simp [ansiSubF]
  | succ f ih =>
    intro s h
    cases s with
    | nil => simp [ansiSubF]
    | cons c t =>
      cases htry : tryAnsi (c :: t) with
      | some r =>
        simp only [escScanOkF, htry] at h
        simp only [ansiSubF, htry]
        exact ih r h
      | none =>
        simp only [escScanOkF, htry, Bool.and_eq_true, Bool.not_eq_eq_eq_not,
          Bool.not_true, decide_eq_false_iff_not] at h
        obtain ⟨h1, h2⟩ := h
        simp only [ansiSubF, htry]
        intro hm
        rcases List.mem_cons.mp hm with heq | hm'
        · exact h1 heq.symm
        · exact ih t h2 hm'

theorem no_esc_hasAnsi : ∀ {l : PyStr}, escChar ∉ l → hasAnsi l = false := by
  intro l
  induction l with
  | nil => intro h; rfl
  | cons c t ih =>
    intro h
    have hc : ¬(c = escChar) := fun he => h (List.mem_cons.mpr (Or.inl he.symm))
    have ht : escChar ∉ t := fun hm => h (List.mem_cons_of_mem _ hm)
    have htry : tryAnsi (c :: t) = none := by simp [tryAnsi, hc]
    simp [hasAnsi, htry, ih ht]

/-- C8 counterexample: `clean_ansi_codes` deletes matches in a single
left-to-right pass, so deleting the inner escape sequence of
`ESC ESC [ 0 m [ 0 m` splices the remaining characters into a fresh
`ESC [ 0 m` escape sequence that survives in the output — the cleaned
text is not always free of ANSI escape sequences. -/
theorem clean_ansi_single_pass_counterexample :
    hasAnsi (clean_ansi_codes "\x1B\x1B[0m[0m".data) = true := by decide

/-- C8 (amended): the cleaned text never contains a run of three or
more consecutive newlines — the collapse substitution replaces each
maximal run of at least three by exactly two, and deletion of escape
sequences or stripping cannot rebuild one; and whenever the single
deletion pass meets no ESC byte outside a complete escape-sequence
match (so no splice can occur), the cleaned text also contains no ANSI
escape sequence. -/
theorem clean_ansi_collapsed_and_escfree (text : PyStr) :
    hasTripleNl (clean_ansi_codes text) = false ∧
    (escScanOk text = true → hasAnsi (clean_ansi_codes text) = false) := by
  constructor
  · exact noTriple_within (pyStrip_within _) (collapseNlF_noTriple _ _)
  · intro h
    have h1 : escChar ∉ ansiSub text := escScan_no_esc _ _ h
    have h2 : escChar ∉ collapseNl (ansiSub text) := by
      intro hm
      rcases mem_collapseNlF _ _ _ hm with h3 | h3
      · exact h1 h3
      · exact absurd h3 (by decide)
    have h3 : escChar ∉ clean_ansi_codes text := fun hm =>
      h2 ((pyStrip_within _).subset hm)
    exact no_esc_hasAnsi h3

/-- C8 witness: a concrete LLM output with an ANSI colour span and a
run of four newlines; the cleaned text has no triple newline and no
escape sequence. -/
theorem clean_ansi_collapsed_and_escfree_witness :
    hasTripleNl (clean_ansi_codes "Hi\x1B[31mW\n\n\n\n\x1B[0m!".data) = false ∧
    hasAnsi (clean_ansi_codes "Hi\x1B[31mW\n\n\n\n\x1B[0m!".data) = false :=
  ⟨(clean_ansi_collapsed_and_escfree ("Hi\x1B[31mW\n\n\n\n\x1B[0m!".data)).1,
   (clean_ansi_collapsed_and_escfree ("Hi\x1B[31mW\n\n\n\n\x1B[0m!".data)).2
     (by decide)⟩

end HomelabBench
